import Mathlib

/-!
Verification of the configuration subsystem of the SPT "AdditionalSettings"
server mod (TypeScript sources: `src/module_configuration.ts`,
`src/module_headers.ts`, `src/module_core.ts`, `src/module_ammo.ts`,
`src/module_ptime.ts`, `src/module_lostondeath.ts`, legacy
`src/configCreation.ts`).

The TypeScript code is shallowly embedded: JSON runtime values become the
inductive `JVal` (numbers as `Rat`; every number produced by `JSON.parse` is
finite, so `Number.isFinite` checks are true on this representation and
`Number.isInteger` becomes "denominator = 1"), strings become `List Char`
scanners mirroring the exact regex passes of the source, and the mutating
validators become pure state-passing functions returning the updated config
together with the accumulated reset-key list.
-/

/-- A parsed JSON runtime value (the dynamic values flowing through the
TypeScript config loader).  Objects keep insertion order, as JavaScript
objects do for string keys. -/
inductive JVal where
  | jnull : JVal
  | jbool : Bool → JVal
  | jnum : Rat → JVal
  | jstr : String → JVal
  | jarr : List JVal → JVal
  | jobj : List (String × JVal) → JVal

mutual

/-- Decidable equality on `JVal` (written out by hand because the automatic
derivation does not support this nested inductive). -/
def JVal.decEq : (a b : JVal) → Decidable (a = b)
  | .jnull, .jnull => isTrue rfl
  | .jbool a, .jbool b =>
    if h : a = b then isTrue (by rw [h]) else isFalse (by simp [h])
  | .jnum a, .jnum b =>
    if h : a = b then isTrue (by rw [h]) else isFalse (by simp [h])
  | .jstr a, .jstr b =>
    if h : a = b then isTrue (by rw [h]) else isFalse (by simp [h])
  | .jarr a, .jarr b =>
    match JVal.decEqList a b with
    | isTrue h => isTrue (by rw [h])
    | isFalse h => isFalse (by simp [h])
  | .jobj a, .jobj b =>
    match JVal.decEqMembers a b with
    | isTrue h => isTrue (by rw [h])
    | isFalse h => isFalse (by simp [h])
  | .jnull, .jbool _ => isFalse (fun h => JVal.noConfusion h)
  | .jnull, .jnum _ => isFalse (fun h => JVal.noConfusion h)
  | .jnull, .jstr _ => isFalse (fun h => JVal.noConfusion h)
  | .jnull, .jarr _ => isFalse (fun h => JVal.noConfusion h)
  | .jnull, .jobj _ => isFalse (fun h => JVal.noConfusion h)
  | .jbool _, .jnull => isFalse (fun h => JVal.noConfusion h)
  | .jbool _, .jnum _ => isFalse (fun h => JVal.noConfusion h)
  | .jbool _, .jstr _ => isFalse (fun h => JVal.noConfusion h)
  | .jbool _, .jarr _ => isFalse (fun h => JVal.noConfusion h)
  | .jbool _, .jobj _ => isFalse (fun h => JVal.noConfusion h)
  | .jnum _, .jnull => isFalse (fun h => JVal.noConfusion h)
  | .jnum _, .jbool _ => isFalse (fun h => JVal.noConfusion h)
  | .jnum _, .jstr _ => isFalse (fun h => JVal.noConfusion h)
  | .jnum _, .jarr _ => isFalse (fun h => JVal.noConfusion h)
  | .jnum _, .jobj _ => isFalse (fun h => JVal.noConfusion h)
  | .jstr _, .jnull => isFalse (fun h => JVal.noConfusion h)
  | .jstr _, .jbool _ => isFalse (fun h => JVal.noConfusion h)
  | .jstr _, .jnum _ => isFalse (fun h => JVal.noConfusion h)
  | .jstr _, .jarr _ => isFalse (fun h => JVal.noConfusion h)
  | .jstr _, .jobj _ => isFalse (fun h => JVal.noConfusion h)
  | .jarr _, .jnull => isFalse (fun h => JVal.noConfusion h)
  | .jarr _, .jbool _ => isFalse (fun h => JVal.noConfusion h)
  | .jarr _, .jnum _ => isFalse (fun h => JVal.noConfusion h)
  | .jarr _, .jstr _ => isFalse (fun h => JVal.noConfusion h)
  | .jarr _, .jobj _ => isFalse (fun h => JVal.noConfusion h)
  | .jobj _, .jnull => isFalse (fun h => JVal.noConfusion h)
  | .jobj _, .jbool _ => isFalse (fun h => JVal.noConfusion h)
  | .jobj _, .jnum _ => isFalse (fun h => JVal.noConfusion h)
  | .jobj _, .jstr _ => isFalse (fun h => JVal.noConfusion h)
  | .jobj _, .jarr _ => isFalse (fun h => JVal.noConfusion h)

/-- Decidable equality on JSON element lists. -/
def JVal.decEqList : (a b : List JVal) → Decidable (a = b)
  | [], [] => isTrue rfl
  | [], _ :: _ => isFalse (fun h => List.noConfusion h)
  | _ :: _, [] => isFalse (fun h => List.noConfusion h)
  | a :: as, b :: bs =>
    match JVal.decEq a b with
    | isFalse h => isFalse (by intro he; injection he with h1 _; exact h h1)
    | isTrue h1 =>
      match JVal.decEqList as bs with
      | isTrue h2 => isTrue (by rw [h1, h2])
      | isFalse h => isFalse (by intro he; injection he with _ h2; exact h h2)

/-- Decidable equality on JSON object member lists. -/
def JVal.decEqMembers : (a b : List (String × JVal)) → Decidable (a = b)
  | [], [] => isTrue rfl
  | [], _ :: _ => isFalse (fun h => List.noConfusion h)
  | _ :: _, [] => isFalse (fun h => List.noConfusion h)
  | (k, v) :: as, (k', v') :: bs =>
    if hk : k = k' then
      match JVal.decEq v v' with
      | isFalse h =>
        isFalse (by intro he; injection he with h1 _; exact h (congrArg Prod.snd h1))
      | isTrue h1 =>
        match JVal.decEqMembers as bs with
        | isTrue h2 => isTrue (by rw [hk, h1, h2])
        | isFalse h => isFalse (by intro he; injection he with _ h2; exact h h2)
    else
      isFalse (by intro he; injection he with h1 _; exact hk (congrArg Prod.fst h1))

end

instance : DecidableEq JVal := JVal.decEq

/-- Characters matched by the JavaScript regex class `\s` that can occur in
the config files handled here (ASCII whitespace). -/
def jsIsSpace (c : Char) : Bool :=
  c = ' ' || c = '\t' || c = '\n' || c = '\r' || c = '\x0b' || c = '\x0c'

/-- Drop leading whitespace (one side of JavaScript `String.prototype.trim`). -/
def trimLeftChars : List Char → List Char
  | [] => []
  | c :: cs => if jsIsSpace c then trimLeftChars cs else c :: cs

/-- Drop trailing whitespace. -/
def trimRightChars (l : List Char) : List Char :=
  (trimLeftChars l.reverse).reverse

/-- JavaScript `String.prototype.trim` on the character-list representation. -/
def jsTrim (l : List Char) : List Char :=
  trimLeftChars (trimRightChars l)

/-- Scan for the first `*/` terminator; on success return the remainder after
it.  This is the non-greedy tail `[\s\S]*?\*\/` of the block-comment regex
`/\/\*[\s\S]*?\*\//g` in `stripJsonComments`. -/
def dropBlockClose : List Char → Option (List Char)
  | '*' :: '/' :: rest => some rest
  | _ :: rest => dropBlockClose rest
  | [] => none

/-- One global pass of `jsonString.replace(/\/\*[\s\S]*?\*\//g, '')`
(`module_configuration.ts`, `stripJsonComments`): every leftmost `/*` with a
later `*/` is deleted together with the shortest span up to that `*/`, and
scanning resumes after the deleted span.  An unterminated `/*` matches
nothing and is kept.  `fuel` only bounds the recursion; it starts at the
input length, which is sufficient since every step consumes at least one
character. -/
def stripBlockChars : Nat → List Char → List Char
  | _, [] => []
  | 0, l => l
  | fuel + 1, c :: rest =>
    if c = '/' && rest.head? = some '*' then
      match dropBlockClose rest.tail with
      | some rest' => stripBlockChars fuel rest'
      | none => c :: rest
    else c :: stripBlockChars fuel rest

/-- The negative lookbehind `(?<![:"'\\])` of the line-comment regex
`/(?<![:"'\\])\/\/.*$/gm`: the character before the candidate `//` blocks the
match when it is a colon, double quote, single quote or backslash. -/
def prevBlocksLC : Option Char → Bool
  | none => false
  | some c => c = ':' || c = '"' || c = '\x27' || c = '\\'

/-- One line of `uncommented.replace(/(?<![:"'\\])\/\/.*$/gm, '')`: cut the
line at the leftmost `//` whose preceding character does not block the
lookbehind (`.*$` then consumes the rest of the line). -/
def cutLC : Option Char → List Char → List Char
  | prev, c :: rest =>
    if c = '/' && rest.head? = some '/' && !prevBlocksLC prev then []
    else c :: cutLC (some c) rest
  | _, [] => []

/-- Tail-recursive worker for `splitLinesCh`: `done` holds the finished
lines in reverse, `cur` the current line in reverse. -/
def splitLinesGo : List (List Char) → List Char → List Char → List (List Char)
  | done, cur, [] => (cur.reverse :: done).reverse
  | done, cur, c :: rest =>
    if c = '\n' then splitLinesGo (cur.reverse :: done) [] rest
    else splitLinesGo done (c :: cur) rest

/-- Split on `'\n'` (the only line terminator occurring in these files), so
the `m` flag of the line-comment regex can be modelled per line. -/
def splitLinesCh (l : List Char) : List (List Char) :=
  splitLinesGo [] [] l

/-- Re-join lines with `'\n'`. -/
def joinLinesCh : List (List Char) → List Char
  | [] => []
  | [l] => l
  | l :: ls => l ++ '\n' :: joinLinesCh ls

/-- The multiline line-comment pass of `stripJsonComments`. -/
def stripLineChars (l : List Char) : List Char :=
  joinLinesCh ((splitLinesCh l).map (cutLC none))

/-- `stripJsonComments` (`module_configuration.ts` lines 160-175): remove
block comments, then line comments not blocked by the lookbehind, then
`trim()`.  The `catch` fallback of the source is dead code for these total
regex passes, so the translation is the `try` branch. -/
def stripJsonComments (s : String) : String :=
  ⟨jsTrim (stripLineChars (stripBlockChars s.data.length s.data))⟩

/-- Lookahead of the trailing-comma regex `/,\s*([}\]])/g`: after a comma,
skip `\s*` and require a closing brace or bracket; on success return the
closer and the remainder after it. -/
def skipWsToClose : List Char → Option (Char × List Char)
  | c :: rest =>
    if c = '\x7d' || c = ']' then some (c, rest)
    else if jsIsSpace c then skipWsToClose rest
    else none
  | [] => none

/-- One global pass of `jsonString.replace(/,\s*([}\]])/g, "$1")`
(`fixTrailingCommas`): each matched `,<ws><closer>` is replaced by the bare
closer and scanning resumes after it.  `fuel` starts at the input length,
which is sufficient since every step consumes at least one character. -/
def fixTCChars : Nat → List Char → List Char
  | _, [] => []
  | 0, l => l
  | fuel + 1, c :: rest =>
    if c = ',' then
      match skipWsToClose rest with
      | some (cl, rest') => cl :: fixTCChars fuel rest'
      | none => c :: fixTCChars fuel rest
    else c :: fixTCChars fuel rest

/-- `fixTrailingCommas` (`module_configuration.ts` lines 182-193).  The
`catch` branch of the source is dead code for this total regex pass. -/
def fixTrailingCommas (s : String) : String :=
  ⟨fixTCChars s.data.length s.data⟩

/-- `trim()` on `String`, used by the loader's emptiness check. -/
def jsTrimS (s : String) : String := ⟨jsTrim s.data⟩

/-- Skip JSON insignificant whitespace (space, tab, newline, carriage
return), as `JSON.parse` does between tokens. -/
def skipWsJ : List Char → List Char
  | c :: rest =>
    if c = ' ' || c = '\t' || c = '\n' || c = '\r' then skipWsJ rest else c :: rest
  | [] => []

/-- Read a maximal run of decimal digits, returning the accumulated value and
the digit count. -/
def readDigits : Nat → Nat → List Char → Nat × Nat × List Char
  | acc, n, c :: rest =>
    if c.isDigit then readDigits (acc * 10 + (c.toNat - 48)) (n + 1) rest
    else (acc, n, c :: rest)
  | acc, n, [] => (acc, n, [])

/-- JSON integer part: `0`, or a nonzero digit followed by digits (a leading
zero is never followed by further digits in the JSON grammar). -/
def parseIntPart : List Char → Option (Nat × List Char)
  | '0' :: rest => some (0, rest)
  | c :: rest =>
    if c.isDigit then
      let (v, _, rest') := readDigits (c.toNat - 48) 1 rest
      some (v, rest')
    else none
  | [] => none

/-- JSON fraction part: optional `.` followed by one or more digits; returns
the fraction digits' value and count. -/
def parseFracPart : List Char → Option ((Nat × Nat) × List Char)
  | '.' :: rest =>
    match readDigits 0 0 rest with
    | (_, 0, _) => none
    | (v, n, rest') => some ((v, n), rest')
  | l => some ((0, 0), l)

/-- JSON exponent part: optional `e`/`E`, optional sign, one or more digits;
returns the signed exponent. -/
def parseExpPart : List Char → Option (Int × List Char)
  | c :: rest =>
    if c = 'e' || c = 'E' then
      match rest with
      | '-' :: rest' =>
        match readDigits 0 0 rest' with
        | (_, 0, _) => none
        | (v, _, rest'') => some (-(v : Int), rest'')
      | '+' :: rest' =>
        match readDigits 0 0 rest' with
        | (_, 0, _) => none
        | (v, _, rest'') => some ((v : Int), rest'')
      | _ =>
        match readDigits 0 0 rest with
        | (_, 0, _) => none
        | (v, _, rest') => some ((v : Int), rest')
    else some (0, c :: rest)
  | [] => some (0, [])

/-- Fuelled Euclidean algorithm.  `Nat.gcd` itself is defined by
well-founded recursion and does not reduce inside the kernel, so the
executable definitions below use this structurally recursive version. -/
def fgcd : Nat → Nat → Nat → Nat
  | _, 0, y => y
  | 0, x + 1, _ => x + 1
  | f + 1, x + 1, y => fgcd f (y % (x + 1)) (x + 1)

theorem fgcd_eq_gcd : ∀ (f x y : Nat), x ≤ f → fgcd f x y = Nat.gcd x y := by
  intro f
  induction f with
  | zero =>
    intro x y hx
    interval_cases x
    simp [fgcd]
  | succ f ih =>
    intro x y hx
    cases x with
    | zero => simp [fgcd]
    | succ x =>
      rw [fgcd, Nat.gcd_succ]
      exact ih _ _ (by have := @Nat.mod_lt y (x + 1) (by omega); omega)

/-- Kernel-computable `Nat.gcd`. -/
def kgcd (x y : Nat) : Nat := fgcd x x y

theorem kgcd_eq_gcd (x y : Nat) : kgcd x y = Nat.gcd x y :=
  fgcd_eq_gcd x x y (Nat.le_refl x)

theorem kgcd_pos {x y : Nat} (hy : y ≠ 0) : 0 < kgcd x y := by
  rw [kgcd_eq_gcd]
  exact Nat.gcd_pos_of_pos_right x (Nat.pos_of_ne_zero hy)

theorem ratNorm_den_nz (n : Int) (d : Nat) (hd : d ≠ 0) :
    d / kgcd n.natAbs d ≠ 0 := by
  have hg : 0 < kgcd n.natAbs d := kgcd_pos hd
  have hdvd : kgcd n.natAbs d ∣ d := by rw [kgcd_eq_gcd]; exact Nat.gcd_dvd_right _ _
  exact Nat.ne_of_gt (Nat.div_pos (Nat.le_of_dvd (Nat.pos_of_ne_zero hd) hdvd) hg)

theorem ratNorm_reduced (n : Int) (d : Nat) (hd : d ≠ 0) :
    (if n < 0 then -((n.natAbs / kgcd n.natAbs d : Nat) : Int)
     else ((n.natAbs / kgcd n.natAbs d : Nat) : Int)).natAbs.Coprime
      (d / kgcd n.natAbs d) := by
  have hg : 0 < Nat.gcd n.natAbs d := by
    have := kgcd_pos (x := n.natAbs) hd
    rwa [kgcd_eq_gcd] at this
  have habs : (if n < 0 then -((n.natAbs / kgcd n.natAbs d : Nat) : Int)
      else ((n.natAbs / kgcd n.natAbs d : Nat) : Int)).natAbs
      = n.natAbs / kgcd n.natAbs d := by
    split
    · rw [Int.natAbs_neg, Int.natAbs_ofNat]
    · rw [Int.natAbs_ofNat]
  rw [habs, kgcd_eq_gcd]
  exact Nat.coprime_div_gcd_div_gcd hg

/-- Kernel-computable construction of the canonical rational `n / d`
(the reduction that `mkRat` performs, but expressed with the fuelled gcd so
that `decide` can evaluate it). -/
def ratNormalize (n : Int) (d : Nat) : Rat :=
  if hd : d = 0 then 0
  else
    Rat.mk' (if n < 0 then -((n.natAbs / kgcd n.natAbs d : Nat) : Int)
             else ((n.natAbs / kgcd n.natAbs d : Nat) : Int))
      (d / kgcd n.natAbs d) (ratNorm_den_nz n d hd) (ratNorm_reduced n d hd)

theorem ratNormalize_eq_mkRat (n : Int) (d : Nat) : ratNormalize n d = mkRat n d := by
  by_cases hd : d = 0
  · simp [ratNormalize, hd, mkRat]
  · rw [ratNormalize, dif_neg hd, mkRat, dif_neg hd, Rat.normalize_eq]
    refine Rat.ext ?_ ?_
    · dsimp only
      rw [kgcd_eq_gcd]
      obtain ⟨k, hk | hk⟩ := n.eq_nat_or_neg
      · subst hk
        rw [if_neg (Int.not_lt.mpr (Int.natCast_nonneg k)), Int.natAbs_ofNat,
          Int.natCast_div]
      · subst hk
        by_cases hk0 : k = 0
        · subst hk0
          norm_num
        · have hkpos : (0 : Int) < (k : Int) := by exact_mod_cast Nat.pos_of_ne_zero hk0
          rw [if_pos (by omega), Int.natAbs_neg, Int.natAbs_ofNat,
            Int.neg_ediv_of_dvd (Int.ofNat_dvd.mpr (Nat.gcd_dvd_left k d)),
            Int.natCast_div]
    · dsimp only
      rw [kgcd_eq_gcd]

/-- Assemble a rational from sign, integer part, fraction and exponent.  The
JSON numbers appearing in these config files are exactly representable, so
`Rat` is a faithful model of the parsed values. -/
def mkJsonNum (neg : Bool) (ip : Nat) (frac : Nat × Nat) (ex : Int) : Rat :=
  let n0 : Int := ((ip * 10 ^ frac.2 + frac.1 : Nat) : Int)
  let n1 : Int := if neg then -n0 else n0
  match ex with
  | .ofNat e => ratNormalize (n1 * 10 ^ e) (10 ^ frac.2)
  | .negSucc e => ratNormalize n1 (10 ^ frac.2 * 10 ^ (e + 1))

/-- JSON number literal. -/
def parseNumber (l : List Char) : Option (Rat × List Char) :=
  let (neg, l1) := match l with | '-' :: r => (true, r) | _ => (false, l)
  match parseIntPart l1 with
  | none => none
  | some (ip, l2) =>
    match parseFracPart l2 with
    | none => none
    | some (frac, l3) =>
      match parseExpPart l3 with
      | none => none
      | some (ex, l4) => some (mkJsonNum neg ip frac ex, l4)

/-- Hexadecimal digit test (for `\u` escapes). -/
def isHexDig (c : Char) : Bool :=
  c.isDigit || ('a' ≤ c && c ≤ 'f') || ('A' ≤ c && c ≤ 'F')

/-- Hexadecimal digit value. -/
def hexVal (c : Char) : Nat :=
  if c.isDigit then c.toNat - 48 else if 'a' ≤ c then c.toNat - 87 else c.toNat - 55

/-- Body of a JSON string literal (the opening quote already consumed):
escape sequences are decoded and raw control characters are rejected, as in
`JSON.parse`. -/
def parseStringBody : List Char → List Char → Option (String × List Char)
  | acc, '"' :: rest => some (⟨acc.reverse⟩, rest)
  | acc, '\\' :: 'u' :: a :: b :: c :: d :: rest =>
    if isHexDig a && isHexDig b && isHexDig c && isHexDig d then
      parseStringBody
        (Char.ofNat (((hexVal a * 16 + hexVal b) * 16 + hexVal c) * 16 + hexVal d) :: acc) rest
    else none
  | acc, '\\' :: e :: rest =>
    match e with
    | '"' => parseStringBody ('"' :: acc) rest
    | '\\' => parseStringBody ('\\' :: acc) rest
    | '/' => parseStringBody ('/' :: acc) rest
    | 'b' => parseStringBody ('\x08' :: acc) rest
    | 'f' => parseStringBody ('\x0c' :: acc) rest
    | 'n' => parseStringBody ('\n' :: acc) rest
    | 'r' => parseStringBody ('\r' :: acc) rest
    | 't' => parseStringBody ('\t' :: acc) rest
    | _ => none
  | acc, c :: rest => if c.toNat < 32 then none else parseStringBody (c :: acc) rest
  | _, [] => none

/-- Insert-or-update of a JavaScript object member: an existing key keeps its
position and gets the new value (`JSON.parse` duplicate-key behaviour),
otherwise the member is appended. -/
def objInsert : List (String × JVal) → String → JVal → List (String × JVal)
  | [], k, v => [(k, v)]
  | (k', v') :: rest, k, v =>
    if k' = k then (k', v) :: rest else (k', v') :: objInsert rest k v

mutual

/-- Strict JSON value parser modelling `jsonUtil.deserialize` /
`JSON.parse`: leading whitespace, then one of the six JSON forms.  `fuel`
only bounds the recursion and is chosen generously by `parseJson`. -/
def parseVal : Nat → List Char → Option (JVal × List Char)
  | 0, _ => none
  | fuel + 1, l =>
    match skipWsJ l with
    | 't' :: 'r' :: 'u' :: 'e' :: r => some (.jbool true, r)
    | 'f' :: 'a' :: 'l' :: 's' :: 'e' :: r => some (.jbool false, r)
    | 'n' :: 'u' :: 'l' :: 'l' :: r => some (.jnull, r)
    | '"' :: r =>
      match parseStringBody [] r with
      | some (s, r') => some (.jstr s, r')
      | none => none
    | '\x7b' :: r =>
      match skipWsJ r with
      | '\x7d' :: r' => some (.jobj [], r')
      | r' => parseMembers fuel r' []
    | '[' :: r =>
      match skipWsJ r with
      | ']' :: r' => some (.jarr [], r')
      | r' => parseElems fuel r' []
    | r =>
      match parseNumber r with
      | some (q, r') => some (.jnum q, r')
      | none => none

/-- Non-empty member list of a JSON object: `"key" : value` pairs separated
by commas, terminated by `}` (a trailing comma is a parse error, as in
strict JSON). -/
def parseMembers : Nat → List Char → List (String × JVal) → Option (JVal × List Char)
  | 0, _, _ => none
  | fuel + 1, l, acc =>
    match skipWsJ l with
    | '"' :: r =>
      match parseStringBody [] r with
      | none => none
      | some (k, r1) =>
        match skipWsJ r1 with
        | ':' :: r2 =>
          match parseVal fuel r2 with
          | none => none
          | some (v, r3) =>
            let acc' := objInsert acc k v
            match skipWsJ r3 with
            | ',' :: r4 => parseMembers fuel r4 acc'
            | '\x7d' :: r4 => some (.jobj acc', r4)
            | _ => none
        | _ => none
    | _ => none

/-- Non-empty element list of a JSON array: values separated by commas,
terminated by `]`. -/
def parseElems : Nat → List Char → List JVal → Option (JVal × List Char)
  | 0, _, _ => none
  | fuel + 1, l, acc =>
    match parseVal fuel l with
    | none => none
    | some (v, r) =>
      match skipWsJ r with
      | ',' :: r2 => parseElems fuel r2 (acc ++ [v])
      | ']' :: r2 => some (.jarr (acc ++ [v]), r2)
      | _ => none

end

/-- `JSON.parse`: a single JSON value followed only by whitespace.  The fuel
`2 * length + 8` dominates the number of parser steps, each of which
consumes input. -/
def parseJson (s : String) : Option JVal :=
  match parseVal (2 * s.data.length + 8) s.data with
  | some (v, rest) => if skipWsJ rest = [] then some v else none
  | none => none

/-- The merged main configuration (`IAdditionalSettingsConfig`) as it looks
while being validated: every field holds an arbitrary JSON runtime value,
because the merge step copies file values without type coercion.  Field
order is the declaration order of the TypeScript interface. -/
structure MainCfg where
  use_weather_module : JVal
  use_plant_time_module : JVal
  use_ammo_module : JVal
  use_weapon_module : JVal
  LootArmbands : JVal
  SaveArmbandOnDeath : JVal
  LootMelee : JVal
  SaveMeleeOnDeath : JVal
  disablePMC_ChatResponse : JVal
  allow_LegaMoneyCase : JVal
  stacksize_lega : JVal
  removeFirForHideout : JVal
  disableSeasonEvents : JVal
  leaveItemAtLocationModifier : JVal
  placeBeaconModifier : JVal
  weightless_ammo : JVal
  weightless_ammoboxes : JVal
  weightless_grenades : JVal
  weapon_inv_shrink : JVal
  allow_autoupdate_configs : JVal
  enableDebugLogs : JVal
deriving DecidableEq

/-- The merged weather configuration (`IWeatherModuleConfig`) under
validation. -/
structure WeatherCfg where
  use_fixed_season : JVal
  fixed_season_index : JVal
  use_weight_system : JVal
  use_random_system : JVal
  random_system_mode : JVal
  exclude_seasons : JVal
  Summer : JVal
  Autumn : JVal
  Winter : JVal
  Spring : JVal
  LateAutumn : JVal
  EarlySpring : JVal
  Storm : JVal
deriving DecidableEq

/-- `typeof v === 'boolean'`. -/
def isBoolJ : JVal → Bool
  | .jbool _ => true
  | _ => false

/-- `typeof v === 'number' && Number.isInteger(v) && lo <= v && v <= hi`
(every `Rat` is finite, and `Number.isInteger` is "denominator 1"). -/
def isIntInRange (lo hi : Rat) (v : JVal) : Bool :=
  match v with
  | .jnum q => q.den = 1 && lo ≤ q && q ≤ hi
  | _ => false

/-- `typeof v === 'number' && Number.isFinite(v) && v >= 0`
(the `checkNonNegativeFinite` helper of both validators). -/
def isNonNegNum : JVal → Bool
  | .jnum q => 0 ≤ q
  | _ => false

/-- The accepting condition of the `disablePMC_ChatResponse` validation in
`validateMainConfig` (lines 455-465): a boolean, or an integer in [1,100];
everything else is reset. -/
def pmcChatOk (v : JVal) : Bool :=
  isBoolJ v || isIntInRange 1 100 v

/-- `if (!resetKeys.includes(key)) resetKeys.push(key)`. -/
def pushKey (ks : List String) (k : String) : List String :=
  if ks.contains k then ks else ks ++ [k]

/-- One field check of a validator: the reset key it reports, the test that
detects an invalid value, and the in-place repair it performs. -/
structure FieldCheck (Cfg : Type) where
  key : String
  test : Cfg → Bool
  fix : Cfg → Cfg

/-- Run a sequence of field checks in order, threading the mutable config
object and the `resetKeys` array of the TypeScript validators. -/
def runChecks {Cfg : Type} (cs : List (FieldCheck Cfg)) (s : Cfg × List String) :
    Cfg × List String :=
  cs.foldl (fun s fc => if fc.test s.1 then (fc.fix s.1, pushKey s.2 fc.key) else s) s

/-- The checks of `validateMainConfig` (`module_configuration.ts` lines
414-478) in source order: seventeen `checkBoolean` calls, then the inline
`disablePMC_ChatResponse`, `stacksize_lega`, and the two
`checkNonNegativeFinite` modifier checks.  Each entry resets the field to
its `defaultMainConfigValues` value. -/
def mainChecks : List (FieldCheck MainCfg) := [
  ⟨"use_weather_module", fun c => !isBoolJ c.use_weather_module,
    fun c => {c with use_weather_module := .jbool false}⟩,
  ⟨"use_plant_time_module", fun c => !isBoolJ c.use_plant_time_module,
    fun c => {c with use_plant_time_module := .jbool false}⟩,
  ⟨"use_ammo_module", fun c => !isBoolJ c.use_ammo_module,
    fun c => {c with use_ammo_module := .jbool false}⟩,
  ⟨"use_weapon_module", fun c => !isBoolJ c.use_weapon_module,
    fun c => {c with use_weapon_module := .jbool false}⟩,
  ⟨"LootArmbands", fun c => !isBoolJ c.LootArmbands,
    fun c => {c with LootArmbands := .jbool true}⟩,
  ⟨"SaveArmbandOnDeath", fun c => !isBoolJ c.SaveArmbandOnDeath,
    fun c => {c with SaveArmbandOnDeath := .jbool false}⟩,
  ⟨"LootMelee", fun c => !isBoolJ c.LootMelee,
    fun c => {c with LootMelee := .jbool true}⟩,
  ⟨"SaveMeleeOnDeath", fun c => !isBoolJ c.SaveMeleeOnDeath,
    fun c => {c with SaveMeleeOnDeath := .jbool false}⟩,
  ⟨"allow_LegaMoneyCase", fun c => !isBoolJ c.allow_LegaMoneyCase,
    fun c => {c with allow_LegaMoneyCase := .jbool false}⟩,
  ⟨"removeFirForHideout", fun c => !isBoolJ c.removeFirForHideout,
    fun c => {c with removeFirForHideout := .jbool false}⟩,
  ⟨"disableSeasonEvents", fun c => !isBoolJ c.disableSeasonEvents,
    fun c => {c with disableSeasonEvents := .jbool false}⟩,
  ⟨"weightless_ammo", fun c => !isBoolJ c.weightless_ammo,
    fun c => {c with weightless_ammo := .jbool false}⟩,
  ⟨"weightless_ammoboxes", fun c => !isBoolJ c.weightless_ammoboxes,
    fun c => {c with weightless_ammoboxes := .jbool false}⟩,
  ⟨"weightless_grenades", fun c => !isBoolJ c.weightless_grenades,
    fun c => {c with weightless_grenades := .jbool false}⟩,
  ⟨"weapon_inv_shrink", fun c => !isBoolJ c.weapon_inv_shrink,
    fun c => {c with weapon_inv_shrink := .jbool false}⟩,
  ⟨"allow_autoupdate_configs", fun c => !isBoolJ c.allow_autoupdate_configs,
    fun c => {c with allow_autoupdate_configs := .jbool false}⟩,
  ⟨"enableDebugLogs", fun c => !isBoolJ c.enableDebugLogs,
    fun c => {c with enableDebugLogs := .jbool false}⟩,
  ⟨"disablePMC_ChatResponse", fun c => !pmcChatOk c.disablePMC_ChatResponse,
    fun c => {c with disablePMC_ChatResponse := .jbool false}⟩,
  ⟨"stacksize_lega", fun c => !isIntInRange 1 999 c.stacksize_lega,
    fun c => {c with stacksize_lega := .jnum 50}⟩,
  ⟨"leaveItemAtLocationModifier", fun c => !isNonNegNum c.leaveItemAtLocationModifier,
    fun c => {c with leaveItemAtLocationModifier := .jnum 1}⟩,
  ⟨"placeBeaconModifier", fun c => !isNonNegNum c.placeBeaconModifier,
    fun c => {c with placeBeaconModifier := .jnum 1}⟩]

/-- `validateMainConfig` (`module_configuration.ts` lines 414-478). -/
def validateMainConfig (c : MainCfg) : MainCfg × List String :=
  runChecks mainChecks (c, [])

/-- Boolean and bounded-integer checks of `validateWeatherConfig`
(`module_configuration.ts` lines 489-559) that run before the
`exclude_seasons` handling, in source order. -/
def weatherChecksA : List (FieldCheck WeatherCfg) := [
  ⟨"use_fixed_season", fun c => !isBoolJ c.use_fixed_season,
    fun c => {c with use_fixed_season := .jbool false}⟩,
  ⟨"use_weight_system", fun c => !isBoolJ c.use_weight_system,
    fun c => {c with use_weight_system := .jbool false}⟩,
  ⟨"use_random_system", fun c => !isBoolJ c.use_random_system,
    fun c => {c with use_random_system := .jbool true}⟩,
  ⟨"fixed_season_index", fun c => !isIntInRange 1 7 c.fixed_season_index,
    fun c => {c with fixed_season_index := .jnum 1}⟩,
  ⟨"random_system_mode", fun c => !isIntInRange 0 1 c.random_system_mode,
    fun c => {c with random_system_mode := .jnum 0}⟩]

/-- `Number.isInteger(idx) && idx >= 0 && idx < seasonsArrayLength` with
`seasonsArrayLength = 7` — the filter predicate of the `exclude_seasons`
validation. -/
def isValidSeasonIdx (v : JVal) : Bool :=
  match v with
  | .jnum q => q.den = 1 && 0 ≤ q && q < 7
  | _ => false

/-- The `exclude_seasons` validation (`module_configuration.ts` lines
524-544): a non-array resets to the default empty list; an array is
filtered to valid indices (reporting a reset when the length changed), and
when the filtered list still has at least `seasonsArrayLength = 7` entries
every entry equal to `6` (Storm) is removed and the field is reported
reset. -/
def excludeSeasonsStep (s : WeatherCfg × List String) : WeatherCfg × List String :=
  match s.1.exclude_seasons with
  | .jarr l =>
    let filtered := l.filter isValidSeasonIdx
    let ks1 := if filtered.length ≠ l.length then pushKey s.2 "exclude_seasons" else s.2
    if 7 ≤ filtered.length then
      ({s.1 with exclude_seasons := .jarr (filtered.filter (fun v => v ≠ .jnum 6))},
        pushKey ks1 "exclude_seasons")
    else
      ({s.1 with exclude_seasons := .jarr filtered}, ks1)
  | _ => ({s.1 with exclude_seasons := .jarr []}, pushKey s.2 "exclude_seasons")

/-- The season-weight `checkNonNegativeFinite` checks of
`validateWeatherConfig`, in the order of its `weightKeys` array.  (The
summed-weight warning of the source only logs and never resets a key.) -/
def weatherWeightChecks : List (FieldCheck WeatherCfg) := [
  ⟨"Summer", fun c => !isNonNegNum c.Summer, fun c => {c with Summer := .jnum 10}⟩,
  ⟨"Autumn", fun c => !isNonNegNum c.Autumn, fun c => {c with Autumn := .jnum 10}⟩,
  ⟨"Winter", fun c => !isNonNegNum c.Winter, fun c => {c with Winter := .jnum 10}⟩,
  ⟨"Spring", fun c => !isNonNegNum c.Spring, fun c => {c with Spring := .jnum 10}⟩,
  ⟨"LateAutumn", fun c => !isNonNegNum c.LateAutumn,
    fun c => {c with LateAutumn := .jnum 10}⟩,
  ⟨"EarlySpring", fun c => !isNonNegNum c.EarlySpring,
    fun c => {c with EarlySpring := .jnum 10}⟩,
  ⟨"Storm", fun c => !isNonNegNum c.Storm, fun c => {c with Storm := .jnum 5}⟩]

/-- `validateWeatherConfig` (`module_configuration.ts` lines 489-559):
booleans and bounded integers, then the `exclude_seasons` handling, then the
seven season weights. -/
def validateWeatherConfig (c : WeatherCfg) : WeatherCfg × List String :=
  runChecks weatherWeightChecks (excludeSeasonsStep (runChecks weatherChecksA (c, [])))

/-- `defaultMainConfigValues` (`module_configuration.ts` lines 108-135). -/
def mainDefaultCfg : MainCfg :=
  ⟨.jbool false, .jbool false, .jbool false, .jbool false,
   .jbool true, .jbool false, .jbool true, .jbool false,
   .jbool false, .jbool false, .jnum 50, .jbool false, .jbool false,
   .jnum 1, .jnum 1,
   .jbool false, .jbool false, .jbool false,
   .jbool false,
   .jbool false, .jbool false⟩

/-- `defaultWeatherConfigValues` (`module_configuration.ts` lines 140-149). -/
def weatherDefaultCfg : WeatherCfg :=
  ⟨.jbool false, .jnum 1, .jbool false, .jbool true, .jnum 0, .jarr [],
   .jnum 10, .jnum 10, .jnum 10, .jnum 10, .jnum 10, .jnum 10, .jnum 5⟩

/-- Property access with the `undefined` of a missing key modelled as
`jnull` (both fail every type test of the validators in the same way). -/
def getJ (o : List (String × JVal)) (k : String) : JVal :=
  (o.lookup k).getD .jnull

/-- View a JavaScript object as the main settings record (the merge step
always supplies every key, starting from a clone of the defaults). -/
def mainOfObj (o : List (String × JVal)) : MainCfg :=
  ⟨getJ o "use_weather_module", getJ o "use_plant_time_module",
   getJ o "use_ammo_module", getJ o "use_weapon_module",
   getJ o "LootArmbands", getJ o "SaveArmbandOnDeath",
   getJ o "LootMelee", getJ o "SaveMeleeOnDeath",
   getJ o "disablePMC_ChatResponse", getJ o "allow_LegaMoneyCase",
   getJ o "stacksize_lega", getJ o "removeFirForHideout",
   getJ o "disableSeasonEvents", getJ o "leaveItemAtLocationModifier",
   getJ o "placeBeaconModifier", getJ o "weightless_ammo",
   getJ o "weightless_ammoboxes", getJ o "weightless_grenades",
   getJ o "weapon_inv_shrink", getJ o "allow_autoupdate_configs",
   getJ o "enableDebugLogs"⟩

/-- The main settings record as a JavaScript object in its declaration
order (the key order of `defaultMainConfigValues`, which the merge step
preserves when it overwrites values in the clone of the defaults). -/
def objOfMain (c : MainCfg) : List (String × JVal) :=
  [("use_weather_module", c.use_weather_module),
   ("use_plant_time_module", c.use_plant_time_module),
   ("use_ammo_module", c.use_ammo_module),
   ("use_weapon_module", c.use_weapon_module),
   ("LootArmbands", c.LootArmbands),
   ("SaveArmbandOnDeath", c.SaveArmbandOnDeath),
   ("LootMelee", c.LootMelee),
   ("SaveMeleeOnDeath", c.SaveMeleeOnDeath),
   ("disablePMC_ChatResponse", c.disablePMC_ChatResponse),
   ("allow_LegaMoneyCase", c.allow_LegaMoneyCase),
   ("stacksize_lega", c.stacksize_lega),
   ("removeFirForHideout", c.removeFirForHideout),
   ("disableSeasonEvents", c.disableSeasonEvents),
   ("leaveItemAtLocationModifier", c.leaveItemAtLocationModifier),
   ("placeBeaconModifier", c.placeBeaconModifier),
   ("weightless_ammo", c.weightless_ammo),
   ("weightless_ammoboxes", c.weightless_ammoboxes),
   ("weightless_grenades", c.weightless_grenades),
   ("weapon_inv_shrink", c.weapon_inv_shrink),
   ("allow_autoupdate_configs", c.allow_autoupdate_configs),
   ("enableDebugLogs", c.enableDebugLogs)]

/-- View a JavaScript object as the weather settings record. -/
def weatherOfObj (o : List (String × JVal)) : WeatherCfg :=
  ⟨getJ o "use_fixed_season", getJ o "fixed_season_index",
   getJ o "use_weight_system", getJ o "use_random_system",
   getJ o "random_system_mode", getJ o "exclude_seasons",
   getJ o "Summer", getJ o "Autumn", getJ o "Winter", getJ o "Spring",
   getJ o "LateAutumn", getJ o "EarlySpring", getJ o "Storm"⟩

/-- The weather settings record as a JavaScript object in the key order of
`defaultWeatherConfigValues`. -/
def objOfWeather (c : WeatherCfg) : List (String × JVal) :=
  [("use_fixed_season", c.use_fixed_season),
   ("fixed_season_index", c.fixed_season_index),
   ("use_weight_system", c.use_weight_system),
   ("use_random_system", c.use_random_system),
   ("random_system_mode", c.random_system_mode),
   ("exclude_seasons", c.exclude_seasons),
   ("Summer", c.Summer), ("Autumn", c.Autumn), ("Winter", c.Winter),
   ("Spring", c.Spring), ("LateAutumn", c.LateAutumn),
   ("EarlySpring", c.EarlySpring), ("Storm", c.Storm)]

/-- `defaultMainConfigValues` as the JavaScript object the loader clones. -/
def mainDefaultsObj : List (String × JVal) := objOfMain mainDefaultCfg

/-- `defaultWeatherConfigValues` as the JavaScript object the loader
clones. -/
def weatherDefaultsObj : List (String × JVal) := objOfWeather weatherDefaultCfg

/-- `validateMainConfig` acting on the merged object representation. -/
def validateMainObj (o : List (String × JVal)) : List (String × JVal) × List String :=
  let r := validateMainConfig (mainOfObj o)
  (objOfMain r.1, r.2)

/-- `validateWeatherConfig` acting on the merged object representation. -/
def validateWeatherObj (o : List (String × JVal)) : List (String × JVal) × List String :=
  let r := validateWeatherConfig (weatherOfObj o)
  (objOfWeather r.1, r.2)

/-- `mergedConfig[key] = value` on an object that already has `key` (the
merge step only assigns keys present in the defaults clone, so position and
key set never change). -/
def setKeyVal (o : List (String × JVal)) (k : String) (v : JVal) :
    List (String × JVal) :=
  o.map (fun p => if p.1 = k then (p.1, v) else p)

/-- Step 3 of `loadAndValidateConfigFile` (`module_configuration.ts` lines
281-306): clone the defaults, copy every loaded value whose key the
defaults know (no type coercion), ignore unknown keys, and set
`fileNeedsUpdate` when some default key is missing from the loaded file. -/
def mergeStep (defaults loaded : List (String × JVal)) :
    List (String × JVal) × Bool :=
  let dk := defaults.map Prod.fst
  let merged := loaded.foldl
    (fun acc p => if dk.contains p.1 then setKeyVal acc p.1 p.2 else acc) defaults
  let needs := dk.any (fun k => !(loaded.map Prod.fst).contains k)
  (merged, needs)

/-- The enumerable own keys the merge loop `for (const key in loadedConfig)`
sees: the members when the parsed value is an object, nothing otherwise. -/
def objMembers : JVal → List (String × JVal)
  | .jobj o => o
  | _ => []

/-- Steps 1-4 of `loadAndValidateConfigFile` (`module_configuration.ts`
lines 244-340) with the file system abstracted: `readResult` is `none` when
`fs.readFileSync` throws (the `catch` returns a clone of the defaults), and
the remaining failure paths (empty sanitized content, parse error) also
return the cloned defaults.  The result carries the merged-and-validated
settings object, the reset keys, and the `fileNeedsUpdate` flag that gates
the optional write-back of step 5. -/
def loadPipeline (readResult : Option String) (defaults : List (String × JVal))
    (validate : List (String × JVal) → List (String × JVal) × List String) :
    List (String × JVal) × List String × Bool :=
  match readResult with
  | none => (defaults, [], false)
  | some raw =>
    let processed := fixTrailingCommas (stripJsonComments raw)
    if jsTrimS processed = "" then (defaults, [], false)
    else
      match parseJson processed with
      | none => (defaults, [], false)
      | some v =>
        let (merged, needs0) := mergeStep defaults (objMembers v)
        let (validated, resetKeys) := validate merged
        (validated, resetKeys, needs0 || !resetKeys.isEmpty)

/-- The lines of the `DEFAULT_MAIN_CONFIG_JSONC` template literal
(`module_headers.ts`), in order.  Each entry is one source line of the
backtick string, without its newline. -/
def mainTemplateLineStrs : List String :=
  ["// Default Configuration for AdditionalSettings Mod",
   "// File Format: JSON with Comments (JSONC). Comments are ignored by the loader.",
   "// Edit values below and restart the server for changes to take effect.",
   "\x7b",
   "    // --- Module Activation ---",
   "    // Toggle the integrated sub-modules on or off. Requires server restart.",
   "",
   "    // Enable the weather randomization module (uses config_weather.jsonc).",
   "    // Default: false",
   "    \"use_weather_module\": false,",
   "",
   "    // Enable modification of quest plant/placement times using multipliers below.",
   "    // Default: false",
   "    \"use_plant_time_module\": false,",
   "",
   "    // Enable ammo/grenade weight modification (settings below).",
   "    // Default: false",
   "    \"use_ammo_module\": false,",
   "",
   "    // Enable weapon modification module (settings below).",
   "    // Default: false",
   "    \"use_weapon_module\": false,",
   "",
   "",
   "    // --- Core Gameplay Tweaks ---",
   "",
   "    // Allow looting armbands (Parent ID: 5b3f15d486f77432d0509248) from bodies.",
   "    // Note: Some specific items might be internally blacklisted.",
   "    // Default: true",
   "    \"LootArmbands\": true,",
   "",
   "    // Prevent losing your equipped armband (ArmBand slot) upon death.",
   "    // Default: false",
   "    \"SaveArmbandOnDeath\": false,",
   "",
   "    // Allow looting melee weapons (Parent ID: 5447e1d04bdc2dff2f8b4567) from bodies.",
   "    // Note: Some specific items (e.g., Kukri) might be internally blacklisted.",
   "    // Default: true",
   "    \"LootMelee\": true,",
   "",
   "    // Prevent losing your equipped melee weapon (Scabbard slot) upon death.",
   "    // Default: false",
   "    \"SaveMeleeOnDeath\": false,",
   "",
   "    // Control PMC voice line chance after kill/death.",
   "    // true: Disable entirely (0% chance).",
   "    // false: Use SPT default behavior.",
   "    // number (1-100): Set specific percentage chance.",
   "    // Default: false",
   "    \"disablePMC_ChatResponse\": false,",
   "",
   "    // Allow \x27Lega Medals\x27 (ID: 6656560053eaaa7a23349c86) in Money Cases (ID: 59fb016586f7746d0d4b423a).",
   "    // Default: false",
   "    \"allow_LegaMoneyCase\": false,",
   "",
   "    // Max stack size for \x27Lega Medals\x27. Clamped between 1 and 999.",
   "    // Default: 50",
   "    \"stacksize_lega\": 50,",
   "",
   "    // Remove \"Found in Raid\" requirement for items used in Hideout construction/upgrades.",
   "    // Default: false",
   "    \"removeFirForHideout\": false,",
   "",
   "    // Disable SPT\x27s seasonal events (e.g., Christmas trees, Halloween pumpkins).",
   "    // Modifies server config to prevent activation based on system date.",
   "    // Default: false",
   "    \"disableSeasonEvents\": false,",
   "",
   "",
   "    // --- Plant Time Module Settings (Only used if use_plant_time_module is true) ---",
   "    // Adjust time multipliers. 1.0 = no change, < 1.0 = faster, > 1.0 = slower. Minimum effective time is 1s.",
   "    // Values must be non-negative numbers. Invalid values reset to 1.0.",
   "",
   "    // Multiplier for \x27LeaveItemAtLocation\x27 quest conditions (e.g., placing Markers, USBs).",
   "    // Default: 1.00",
   "    \"leaveItemAtLocationModifier\": 1.00,",
   "",
   "    // Multiplier for \x27PlaceBeacon\x27 quest conditions (e.g., placing WI-FI Camera, MS2000).",
   "    // Default: 1.00",
   "    \"placeBeaconModifier\": 1.00,",
   "",
   "",
   "    // --- Ammo Module Settings (Only used if use_ammo_module is true) ---",
   "",
   "    // Set weight of individual ammo rounds (Parent ID: 5485a8684bdc2da71d8b4567) to 0.",
   "    // Default: false",
   "    \"weightless_ammo\": false,",
   "",
   "    // Set weight of ammo boxes (Parent ID: 543be5cb4bdc2deb348b4568) to 0.",
   "    // Default: false",
   "    \"weightless_ammoboxes\": false,",
   "",
   "    // Set weight of grenades (Parent ID: 543be6564bdc2df4348b4568) to 0.",
   "    // Default: false",
   "    \"weightless_grenades\": false,",
   "",
   "",
   "    // --- Weapon Module Settings (Only used if use_weapon_module is true) ---",
   "",
   "    // Adjust specific item \x27ExtraSize\x27 properties to potentially shrink their thumbnail view.",
   "    // IMPORTANT: This is a visual tweak ONLY and does not change the item\x27s actual grid size.",
   "    // For the visual change to apply, Cache-/Temp-Files need to be deleted in SPT-Launcher!",
   "    // Default: false",
   "    \"weapon_inv_shrink\": false,",
   "",
   "",
   "    // --- Debugging & Maintenance ---",
   "",
   "    // Allow the mod to automatically overwrite config files on startup if settings",
   "    // are missing or invalid. Useful for adding new default settings automatically.",
   "    // WARNING: This will REMOVE all comments and custom formatting from the file!",
   "    // Default: false",
   "    \"allow_autoupdate_configs\": false,",
   "",
   "    // Enable detailed debug messages in the server console for troubleshooting.",
   "    // Can be very verbose. Keep false unless diagnosing issues.",
   "    // Default: false",
   "    \"enableDebugLogs\": false",
   "\x7d",
   ""]

/-- `DEFAULT_MAIN_CONFIG_JSONC` (`module_headers.ts`): the exact bundled
template text.  It is written as its lines joined with newlines (the
template contains no other line terminators), which lets the
comment-stripping proofs below work line by line. -/
def DEFAULT_MAIN_CONFIG_JSONC : String :=
  ⟨joinLinesCh (mainTemplateLineStrs.map String.data)⟩

/-- The lines of the main template after the line-comment pass
(each line cut at its first unprotected `//`). -/
def mainCutLineStrs : List String :=
  ["",
   "",
   "",
   "\x7b",
   "    ",
   "    ",
   "",
   "    ",
   "    ",
   "    \"use_weather_module\": false,",
   "",
   "    ",
   "    ",
   "    \"use_plant_time_module\": false,",
   "",
   "    ",
   "    ",
   "    \"use_ammo_module\": false,",
   "",
   "    ",
   "    ",
   "    \"use_weapon_module\": false,",
   "",
   "",
   "    ",
   "",
   "    ",
   "    ",
   "    ",
   "    \"LootArmbands\": true,",
   "",
   "    ",
   "    ",
   "    \"SaveArmbandOnDeath\": false,",
   "",
   "    ",
   "    ",
   "    ",
   "    \"LootMelee\": true,",
   "",
   "    ",
   "    ",
   "    \"SaveMeleeOnDeath\": false,",
   "",
   "    ",
   "    ",
   "    ",
   "    ",
   "    ",
   "    \"disablePMC_ChatResponse\": false,",
   "",
   "    ",
   "    ",
   "    \"allow_LegaMoneyCase\": false,",
   "",
   "    ",
   "    ",
   "    \"stacksize_lega\": 50,",
   "",
   "    ",
   "    ",
   "    \"removeFirForHideout\": false,",
   "",
   "    ",
   "    ",
   "    ",
   "    \"disableSeasonEvents\": false,",
   "",
   "",
   "    ",
   "    ",
   "    ",
   "",
   "    ",
   "    ",
   "    \"leaveItemAtLocationModifier\": 1.00,",
   "",
   "    ",
   "    ",
   "    \"placeBeaconModifier\": 1.00,",
   "",
   "",
   "    ",
   "",
   "    ",
   "    ",
   "    \"weightless_ammo\": false,",
   "",
   "    ",
   "    ",
   "    \"weightless_ammoboxes\": false,",
   "",
   "    ",
   "    ",
   "    \"weightless_grenades\": false,",
   "",
   "",
   "    ",
   "",
   "    ",
   "    ",
   "    ",
   "    ",
   "    \"weapon_inv_shrink\": false,",
   "",
   "",
   "    ",
   "",
   "    ",
   "    ",
   "    ",
   "    ",
   "    \"allow_autoupdate_configs\": false,",
   "",
   "    ",
   "    ",
   "    ",
   "    \"enableDebugLogs\": false",
   "\x7d",
   ""]

/-- `stripJsonComments DEFAULT_MAIN_CONFIG_JSONC`, as a literal. -/
def sanitizedMainStr : String := "\x7b\n    \n    \n\n    \n    \n    \"use_weather_module\": false,\n\n    \n    \n    \"use_plant_time_module\": false,\n\n    \n    \n    \"use_ammo_module\": false,\n\n    \n    \n    \"use_weapon_module\": false,\n\n\n    \n\n    \n    \n    \n    \"LootArmbands\": true,\n\n    \n    \n    \"SaveArmbandOnDeath\": false,\n\n    \n    \n    \n    \"LootMelee\": true,\n\n    \n    \n    \"SaveMeleeOnDeath\": false,\n\n    \n    \n    \n    \n    \n    \"disablePMC_ChatResponse\": false,\n\n    \n    \n    \"allow_LegaMoneyCase\": false,\n\n    \n    \n    \"stacksize_lega\": 50,\n\n    \n    \n    \"removeFirForHideout\": false,\n\n    \n    \n    \n    \"disableSeasonEvents\": false,\n\n\n    \n    \n    \n\n    \n    \n    \"leaveItemAtLocationModifier\": 1.00,\n\n    \n    \n    \"placeBeaconModifier\": 1.00,\n\n\n    \n\n    \n    \n    \"weightless_ammo\": false,\n\n    \n    \n    \"weightless_ammoboxes\": false,\n\n    \n    \n    \"weightless_grenades\": false,\n\n\n    \n\n    \n    \n    \n    \n    \"weapon_inv_shrink\": false,\n\n\n    \n\n    \n    \n    \n    \n    \"allow_autoupdate_configs\": false,\n\n    \n    \n    \n    \"enableDebugLogs\": false\n\x7d"

/-- The lines of the `DEFAULT_WEATHER_CONFIG_JSONC` template literal
(`module_headers.ts`), in order.  Each entry is one source line of the
backtick string, without its newline. -/
def weatherTemplateLineStrs : List String :=
  ["// Default Configuration for AdditionalSettings Weather Module",
   "// Controls in-game season selection. Only ONE mode is active at a time.",
   "// Used only if \"use_weather_module\" is true in the main config.jsonc file.",
   "// Mode Precedence: Fixed Season > Weighted System > Random System.",
   "\x7b",
   "    // --- Mode 1: Fixed Season ---",
   "    // If true, forces the season specified by \x27fixed_season_index\x27. Overrides all other modes.",
   "    // Default: false",
   "    \"use_fixed_season\": false,",
   "",
   "    // Season index to use if \x27use_fixed_season\x27 is true. (1-7)",
   "    // 1=Summer, 2=Autumn, 3=Winter, 4=Spring, 5=LateAutumn, 6=EarlySpring, 7=Storm",
   "    // Invalid numbers default to 1 (Summer).",
   "    // Default: 1",
   "    \"fixed_season_index\": 1,",
   "",
   "",
   "    // --- Mode 2: Weighted Random System ---",
   "    // If \x27use_fixed_season\x27 is false AND this is true, seasons are chosen randomly based on weights below.",
   "    // Excludes seasons listed in \x27exclude_seasons\x27. Overrides Mode 3.",
   "    // Default: false",
   "    \"use_weight_system\": false,",
   "",
   "    // Season weights (used only if Mode 2 is active). Higher number = higher chance.",
   "    // Must be non-negative numbers. 0 weight effectively disables the season for this mode.",
   "    // Invalid values reset to defaults.",
   "    // Default: 10 (Summer, Autumn, Winter, Spring, LateAutumn, EarlySpring), 5 (Storm)",
   "    \"Summer\": 10,",
   "    \"Autumn\": 10,",
   "    \"Winter\": 10,",
   "    \"Spring\": 10,",
   "    \"LateAutumn\": 10,",
   "    \"EarlySpring\": 10,",
   "    \"Storm\": 5,",
   "",
   "",
   "    // --- Mode 3: Auto Random System ---",
   "    // If fixed and weighted modes are false AND this is true, randomizes based on \x27random_system_mode\x27.",
   "    // Acts as fallback (with mode 0) if all mode flags are false.",
   "    // Default: true",
   "    \"use_random_system\": true,",
   "",
   "    // Pool for Auto Random system (used only if Mode 3 is active). (0 or 1)",
   "    // 0 = Auto All: Randomize equally among ALL seasons (ignores \x27exclude_seasons\x27).",
   "    // 1 = Auto Available: Randomize equally among seasons NOT in \x27exclude_seasons\x27.",
   "    // Invalid numbers default to 0.",
   "    // Default: 0",
   "    \"random_system_mode\": 0,",
   "",
   "",
   "    // --- Season Exclusion ---",
   "    // List of season indices (0-6) to exclude from Weighted mode and Random Mode 1.",
   "    // Use internal index: 0=Summer, 1=Autumn, 2=Winter, 3=Spring, 4=LateAutumn, 5=EarlySpring, 6=Storm.",
   "    // Invalid numbers (outside 0-6) are ignored. Does NOT affect Fixed Season or Random Mode 0.",
   "    // Safety: If all valid seasons (0-6) are excluded, Storm (6) is automatically kept available.",
   "    // Example: [2, 6] // Exclude Winter and Storm",
   "    // Default: [] (no exclusions)",
   "    \"exclude_seasons\": []",
   "",
   "    // --- FIKA Integration --- Note: No config setting required anymore.",
   "    // If FIKA is detected, weather determination is automatically hooked into raid creation.",
   "\x7d",
   ""]

/-- `DEFAULT_WEATHER_CONFIG_JSONC` (`module_headers.ts`): the exact bundled
template text.  It is written as its lines joined with newlines (the
template contains no other line terminators), which lets the
comment-stripping proofs below work line by line. -/
def DEFAULT_WEATHER_CONFIG_JSONC : String :=
  ⟨joinLinesCh (weatherTemplateLineStrs.map String.data)⟩

/-- The lines of the weather template after the line-comment pass
(each line cut at its first unprotected `//`). -/
def weatherCutLineStrs : List String :=
  ["",
   "",
   "",
   "",
   "\x7b",
   "    ",
   "    ",
   "    ",
   "    \"use_fixed_season\": false,",
   "",
   "    ",
   "    ",
   "    ",
   "    ",
   "    \"fixed_season_index\": 1,",
   "",
   "",
   "    ",
   "    ",
   "    ",
   "    ",
   "    \"use_weight_system\": false,",
   "",
   "    ",
   "    ",
   "    ",
   "    ",
   "    \"Summer\": 10,",
   "    \"Autumn\": 10,",
   "    \"Winter\": 10,",
   "    \"Spring\": 10,",
   "    \"LateAutumn\": 10,",
   "    \"EarlySpring\": 10,",
   "    \"Storm\": 5,",
   "",
   "",
   "    ",
   "    ",
   "    ",
   "    ",
   "    \"use_random_system\": true,",
   "",
   "    ",
   "    ",
   "    ",
   "    ",
   "    ",
   "    \"random_system_mode\": 0,",
   "",
   "",
   "    ",
   "    ",
   "    ",
   "    ",
   "    ",
   "    ",
   "    ",
   "    \"exclude_seasons\": []",
   "",
   "    ",
   "    ",
   "\x7d",
   ""]

/-- `stripJsonComments DEFAULT_WEATHER_CONFIG_JSONC`, as a literal. -/
def sanitizedWeatherStr : String := "\x7b\n    \n    \n    \n    \"use_fixed_season\": false,\n\n    \n    \n    \n    \n    \"fixed_season_index\": 1,\n\n\n    \n    \n    \n    \n    \"use_weight_system\": false,\n\n    \n    \n    \n    \n    \"Summer\": 10,\n    \"Autumn\": 10,\n    \"Winter\": 10,\n    \"Spring\": 10,\n    \"LateAutumn\": 10,\n    \"EarlySpring\": 10,\n    \"Storm\": 5,\n\n\n    \n    \n    \n    \n    \"use_random_system\": true,\n\n    \n    \n    \n    \n    \n    \"random_system_mode\": 0,\n\n\n    \n    \n    \n    \n    \n    \n    \n    \"exclude_seasons\": []\n\n    \n    \n\x7d"

/-- "No block comment can start here": the text contains no adjacent
`/*`. -/
def noSlashStar : List Char → Bool
  | a :: rest => !(a = '/' && rest.head? = some '*') && noSlashStar rest
  | [] => true

theorem noSlashStar_tail {c : Char} {l : List Char}
    (h : noSlashStar (c :: l) = true) : noSlashStar l = true := by
  simp only [noSlashStar, Bool.and_eq_true] at h
  exact h.2

/-- On text containing no `/*`, the block-comment pass of
`stripJsonComments` is the identity (for any fuel). -/
theorem stripBlock_id (fuel : Nat) (l : List Char) (h : noSlashStar l = true) :
    stripBlockChars fuel l = l := by
  induction fuel generalizing l with
  | zero => cases l <;> rfl
  | succ f ih =>
    cases l with
    | nil => rfl
    | cons c rest =>
      have hc : (c = '/' && rest.head? = some '*') = false := by
        simp only [noSlashStar, Bool.and_eq_true, Bool.not_eq_true'] at h
        exact h.1
      rw [stripBlockChars, if_neg (by simp [hc]), ih rest (noSlashStar_tail h)]

/-- `noSlashStar` across an append whose second part starts with a
newline. -/
theorem noSlashStar_append_newline {a b : List Char}
    (ha : noSlashStar a = true) (hb : noSlashStar b = true) :
    noSlashStar (a ++ '\n' :: b) = true := by
  induction a with
  | nil =>
    simp only [List.nil_append, noSlashStar, Bool.and_eq_true]
    exact ⟨by cases b <;> simp, hb⟩
  | cons c t ih =>
    simp only [List.cons_append, noSlashStar, Bool.and_eq_true] at ha ⊢
    refine ⟨?_, ih ha.2⟩
    cases t with
    | nil => simp
    | cons d u => simpa using ha.1

/-- `noSlashStar` for a newline-joined list of lines, each of which is
`/*`-free. -/
theorem noSlashStar_join (ls : List (List Char))
    (h : ls.all noSlashStar = true) : noSlashStar (joinLinesCh ls) = true := by
  induction ls with
  | nil => rfl
  | cons l t ih =>
    simp only [List.all_cons, Bool.and_eq_true] at h
    cases t with
    | nil => exact h.1
    | cons l2 t2 =>
      have hj : joinLinesCh (l :: l2 :: t2) = l ++ '\n' :: joinLinesCh (l2 :: t2) := rfl
      rw [hj]
      exact noSlashStar_append_newline h.1 (ih h.2)

theorem splitLinesGo_append (l : List Char) (h : l.contains '\n' = false) :
    ∀ done cur rest, splitLinesGo done cur (l ++ '\n' :: rest)
      = splitLinesGo ((l.reverse ++ cur).reverse :: done) [] rest := by
  induction l with
  | nil =>
    intro done cur rest
    simp [splitLinesGo]
  | cons c t ih =>
    intro done cur rest
    simp only [List.contains_cons, Bool.or_eq_false_iff] at h
    have hc : ¬c = '\n' := by
      intro he
      subst he
      simp at h
    rw [List.cons_append, splitLinesGo, if_neg hc, ih h.2]
    congr 2
    simp [List.reverse_cons, List.append_assoc]

theorem splitLinesGo_last (l : List Char) (h : l.contains '\n' = false) :
    ∀ done cur, splitLinesGo done cur l
      = ((l.reverse ++ cur).reverse :: done).reverse := by
  induction l with
  | nil => intro done cur; rfl
  | cons c t ih =>
    intro done cur
    simp only [List.contains_cons, Bool.or_eq_false_iff] at h
    have hc : ¬c = '\n' := by
      intro he
      subst he
      simp at h
    rw [splitLinesGo, if_neg hc, ih h.2]
    congr 3
    simp [List.reverse_cons, List.append_assoc]

theorem splitLinesGo_join (ls : List (List Char)) (hne : ls ≠ [])
    (h : ls.all (fun l => !l.contains '\n') = true) :
    ∀ done, splitLinesGo done [] (joinLinesCh ls) = done.reverse ++ ls := by
  induction ls with
  | nil => exact absurd rfl hne
  | cons l t ih =>
    intro done
    simp only [List.all_cons, Bool.and_eq_true, Bool.not_eq_true'] at h
    cases t with
    | nil =>
      rw [joinLinesCh, splitLinesGo_last l h.1]
      simp
    | cons l2 t2 =>
      have hj : joinLinesCh (l :: l2 :: t2) = l ++ '\n' :: joinLinesCh (l2 :: t2) := rfl
      rw [hj, splitLinesGo_append l h.1]
      rw [ih (by simp) (by simpa using h.2)]
      simp

/-- Splitting a newline-join of newline-free lines recovers the lines. -/
theorem splitLines_join (ls : List (List Char)) (hne : ls ≠ [])
    (h : ls.all (fun l => !l.contains '\n') = true) :
    splitLinesCh (joinLinesCh ls) = ls := by
  rw [splitLinesCh, splitLinesGo_join ls hne h []]
  rfl

/-- The line-comment pass on a newline-join of newline-free lines cuts each
line independently. -/
theorem stripLineChars_join (ls : List (List Char)) (hne : ls ≠ [])
    (h : ls.all (fun l => !l.contains '\n') = true) :
    stripLineChars (joinLinesCh ls) = joinLinesCh (ls.map (cutLC none)) := by
  rw [stripLineChars, splitLines_join ls hne h]

set_option maxRecDepth 400000 in
/-- Evaluation of the sanitizer on the bundled main template. -/
theorem stripJsonComments_main_eq :
    stripJsonComments DEFAULT_MAIN_CONFIG_JSONC = sanitizedMainStr := by
  have h0 : DEFAULT_MAIN_CONFIG_JSONC.data
      = joinLinesCh (mainTemplateLineStrs.map String.data) := rfl
  rw [stripJsonComments, h0]
  rw [stripBlock_id _ _ (noSlashStar_join _ (by decide))]
  rw [stripLineChars_join _ (by decide) (by decide)]
  rw [show (mainTemplateLineStrs.map String.data).map (cutLC none)
        = mainCutLineStrs.map String.data from by decide]
  exact congrArg String.mk (by decide)

set_option maxRecDepth 400000 in
/-- Evaluation of the sanitizer on the bundled weather template. -/
theorem stripJsonComments_weather_eq :
    stripJsonComments DEFAULT_WEATHER_CONFIG_JSONC = sanitizedWeatherStr := by
  have h0 : DEFAULT_WEATHER_CONFIG_JSONC.data
      = joinLinesCh (weatherTemplateLineStrs.map String.data) := rfl
  rw [stripJsonComments, h0]
  rw [stripBlock_id _ _ (noSlashStar_join _ (by decide))]
  rw [stripLineChars_join _ (by decide) (by decide)]
  rw [show (weatherTemplateLineStrs.map String.data).map (cutLC none)
        = weatherCutLineStrs.map String.data from by decide]
  exact congrArg String.mk (by decide)

/-- The parsed sanitized weather template: its members appear in the
template's own key order, which differs from the key order of
`defaultWeatherConfigValues` (the merge step restores the latter). -/
def weatherParsedObj : List (String × JVal) :=
  [("use_fixed_season", .jbool false),
   ("fixed_season_index", .jnum 1),
   ("use_weight_system", .jbool false),
   ("Summer", .jnum 10), ("Autumn", .jnum 10), ("Winter", .jnum 10),
   ("Spring", .jnum 10), ("LateAutumn", .jnum 10), ("EarlySpring", .jnum 10),
   ("Storm", .jnum 5),
   ("use_random_system", .jbool true),
   ("random_system_mode", .jnum 0),
   ("exclude_seasons", .jarr [])]

/-- The validated settings values the feature modules read (after
validation every field satisfies its constraint, so the consumers see
booleans and rationals). -/
structure SettingsEff where
  LootArmbands : Bool
  LootMelee : Bool
  SaveArmbandOnDeath : Bool
  SaveMeleeOnDeath : Bool
  weightless_ammo : Bool
  weightless_ammoboxes : Bool
  weightless_grenades : Bool
  leaveItemAtLocationModifier : Rat
  placeBeaconModifier : Rat
deriving DecidableEq

/-- The `_props` bag of a database item template, restricted to the
properties the modelled consumers touch.  `Weight` is `none` when the
property is missing or not a number (`typeof item._props.Weight !==
'number'`). -/
structure ItemProps where
  Unlootable : Bool
  UnlootableFromSide : List String
  Weight : Option Rat
deriving DecidableEq

/-- A database item template (`_parent` is the empty string when the item
has no parent, which the consumers skip via `!item._parent`; the `_props`
bag is always present in the model, matching the templates the modules can
reach). -/
structure ItemT where
  parent : String
  props : ItemProps
deriving DecidableEq

/-- `CoreModule.ARMBAND_PARENT_ID`. -/
def ARMBAND_PARENT_ID : String := "5b3f15d486f77432d0509248"

/-- `CoreModule.MELEE_PARENT_ID`. -/
def MELEE_PARENT_ID : String := "5447e1d04bdc2dff2f8b4567"

/-- `CoreModule.LOOTABILITY_BLACKLIST`. -/
def LOOTABILITY_BLACKLIST : List String := ["65ca457b4aafb5d7fc0dcb5d"]

/-- The per-item body of `CoreModule.applyLootabilitySettings`
(`module_core.ts` lines 819-862): armbands and melee weapons that are
currently `Unlootable` are made lootable (and their side restriction
cleared) when the matching config flag is on and the item is not
blacklisted. -/
def applyLootabilityItem (cfg : SettingsEff) (itemId : String) (it : ItemT) : ItemT :=
  if it.parent = "" then it
  else
    let isBlacklisted := LOOTABILITY_BLACKLIST.contains itemId
    let it1 :=
      if it.parent = ARMBAND_PARENT_ID && it.props.Unlootable
          && (cfg.LootArmbands && !isBlacklisted) then
        {it with props := {it.props with Unlootable := false, UnlootableFromSide := []}}
      else it
    if it1.parent = MELEE_PARENT_ID && it1.props.Unlootable
        && (cfg.LootMelee && !isBlacklisted) then
      {it1 with props := {it1.props with Unlootable := false, UnlootableFromSide := []}}
    else it1

/-- `CoreModule.applyLootabilitySettings` over the items table (the
counters of the source only feed log lines). -/
def applyLootabilitySettings (cfg : SettingsEff) (items : List (String × ItemT)) :
    List (String × ItemT) :=
  items.map (fun p => (p.1, applyLootabilityItem cfg p.1 p.2))

/-- `AmmoModule.AMMO_PARENT_ID`. -/
def AMMO_PARENT_ID : String := "5485a8684bdc2da71d8b4567"

/-- `AmmoModule.GRENADE_PARENT_ID`. -/
def GRENADE_PARENT_ID : String := "543be6564bdc2df4348b4568"

/-- `AmmoModule.AMMOBOX_PARENT_ID`. -/
def AMMOBOX_PARENT_ID : String := "543be5cb4bdc2deb348b4568"

/-- The per-item body of `AmmoModule.applyAmmoWeightChanges`
(`module_ammo.ts` lines 101-149): items with a numeric nonzero weight and a
configured parent type get weight `0`. -/
def applyAmmoWeightItem (cfg : SettingsEff) (it : ItemT) : ItemT :=
  match it.props.Weight with
  | none => it
  | some w =>
    if it.parent = "" || w = 0 then it
    else if cfg.weightless_ammo && it.parent = AMMO_PARENT_ID then
      {it with props := {it.props with Weight := some 0}}
    else if cfg.weightless_ammoboxes && it.parent = AMMOBOX_PARENT_ID then
      {it with props := {it.props with Weight := some 0}}
    else if cfg.weightless_grenades && it.parent = GRENADE_PARENT_ID then
      {it with props := {it.props with Weight := some 0}}
    else it

/-- `AmmoModule.applyAmmoWeightChanges` over the items table. -/
def applyAmmoWeightChanges (cfg : SettingsEff) (items : List (String × ItemT)) :
    List (String × ItemT) :=
  items.map (fun p => (p.1, applyAmmoWeightItem cfg p.2))

/-- The `equipment` section of the host's LostOnDeath config (`true` means
the slot is lost on death). -/
structure LostOnDeathEquipment where
  ArmBand : Bool
  Scabbard : Bool
deriving DecidableEq

/-- `LostOnDeathModule.applyLostOnDeathChanges` (`module_lostondeath.ts`
lines 78-147): when both settings are off nothing is touched; otherwise
each enabled setting flips its slot from `true` to `false`. -/
def applyLostOnDeathChanges (cfg : SettingsEff) (eq : LostOnDeathEquipment) :
    LostOnDeathEquipment :=
  if !cfg.SaveArmbandOnDeath && !cfg.SaveMeleeOnDeath then eq
  else
    let eq1 :=
      if cfg.SaveArmbandOnDeath && eq.ArmBand then {eq with ArmBand := false} else eq
    if cfg.SaveMeleeOnDeath && eq1.Scabbard then {eq1 with Scabbard := false} else eq1

/-- A quest condition with an optional `plantTime` (absent or non-numeric
values are `none`; parsed numbers are finite). -/
structure QuestCond where
  conditionType : String
  plantTime : Option Rat
deriving DecidableEq

/-- A quest with its `conditions.AvailableForFinish` array (`none` when the
quest has no such array). -/
structure QuestT where
  availableForFinish : Option (List QuestCond)
deriving DecidableEq

/-- JavaScript `Math.round` (round half toward positive infinity) on an
exact rational: `⌊q + 1/2⌋`, computed kernel-reducibly on the numerator and
denominator. -/
def jsRound (q : Rat) : Int :=
  (2 * q.num + q.den).fdiv (2 * (q.den : Int))

/-- Exact product of two rationals built with the kernel-computable
normalizer (equal to `Rat.mul`, see `ratMul_eq`). -/
def ratMul (a b : Rat) : Rat :=
  ratNormalize (a.num * b.num) (a.den * b.den)

theorem ratMul_eq (a b : Rat) : ratMul a b = a * b := by
  rw [ratMul, ratNormalize_eq_mkRat, Rat.mul_def, Rat.normalize_eq_mkRat]

/-- The per-condition body of `PlantTimeModule.applyPlantTimeChanges`
(`module_ptime.ts` lines 108-154): a `LeaveItemAtLocation` or `PlaceBeacon`
condition with a numeric `plantTime` is scaled by the matching modifier
(when that modifier is not `1.0`), rounded, floored at one second, and
written back only when the result differs. -/
def applyPlantTimeCond (leaveModifier beaconModifier : Rat) (c : QuestCond) : QuestCond :=
  match c.plantTime with
  | none => c
  | some t =>
    match c.conditionType with
    | "LeaveItemAtLocation" =>
      if leaveModifier ≠ 1 then
        let newTime : Rat := ((max 1 (jsRound (ratMul t leaveModifier)) : Int) : Rat)
        if newTime ≠ t then {c with plantTime := some newTime} else c
      else c
    | "PlaceBeacon" =>
      if beaconModifier ≠ 1 then
        let newTime : Rat := ((max 1 (jsRound (ratMul t beaconModifier)) : Int) : Rat)
        if newTime ≠ t then {c with plantTime := some newTime} else c
      else c
    | _ => c

/-- `PlantTimeModule.applyPlantTimeChanges` (`module_ptime.ts` lines
68-164): when both modifiers are `1.0` the method returns before touching
any quest; otherwise every `AvailableForFinish` condition is processed. -/
def applyPlantTimeChanges (cfg : SettingsEff) (quests : List (String × QuestT)) :
    List (String × QuestT) :=
  if cfg.leaveItemAtLocationModifier = 1 && cfg.placeBeaconModifier = 1 then quests
  else
    quests.map (fun p =>
      (p.1,
       match p.2.availableForFinish with
       | none => p.2
       | some conds =>
         ⟨some (conds.map
           (applyPlantTimeCond cfg.leaveItemAtLocationModifier cfg.placeBeaconModifier))⟩))

/-- The `disablePMC_ChatResponse` validation of the legacy loader
`loadOrCreateConfig` (`configCreation.ts` lines 305-316): numbers outside
`[1,100]` (or `NaN`, impossible for a parsed rational) reset to the boolean
default `false`, in-range numbers are floored with `Math.floor`, non-number
non-boolean values reset to `false`. -/
def legacyValidatePmc (v : JVal) : JVal :=
  match v with
  | .jnum q =>
    if q < 1 || 100 < q then .jbool false
    else .jnum ((q.num.fdiv (q.den : Int) : Int) : Rat)
  | .jbool b => .jbool b
  | _ => .jbool false

theorem pushKey_not_mem {ks : List String} {k : String} (h : k ∉ ks) :
    pushKey ks k = ks ++ [k] := by
  rw [pushKey, if_neg]
  simpa using h

theorem pushKey_mem_self (ks : List String) (k : String) : k ∈ pushKey ks k := by
  rw [pushKey]
  split
  · exact List.elem_iff.mp (by assumption)
  · simp

theorem pushKey_mem_of_mem {ks : List String} {k k' : String} (h : k ∈ ks) :
    k ∈ pushKey ks k' := by
  rw [pushKey]
  split
  · exact h
  · simp [h]

theorem runChecks_cons {Cfg : Type} (fc : FieldCheck Cfg) (cs : List (FieldCheck Cfg))
    (s : Cfg × List String) :
    runChecks (fc :: cs) s
      = runChecks cs (if fc.test s.1 then (fc.fix s.1, pushKey s.2 fc.key) else s) := by
  rw [runChecks, List.foldl_cons, runChecks]

/-- Keys already reported stay reported across a run of checks. -/
theorem runChecks_mem_of_mem {Cfg : Type} (cs : List (FieldCheck Cfg))
    (s : Cfg × List String) {k : String} (h : k ∈ s.2) :
    k ∈ (runChecks cs s).2 := by
  induction cs generalizing s with
  | nil => exact h
  | cons fc cs ih =>
    rw [runChecks_cons]
    split
    · exact ih _ (pushKey_mem_of_mem h)
    · exact ih _ h

/-- A configuration field left untouched by every fix in the list is
preserved by the run. -/
theorem runChecks_field_pres {Cfg α : Type} (f : Cfg → α) (cs : List (FieldCheck Cfg))
    (hf : ∀ fc ∈ cs, ∀ c, f (fc.fix c) = f c) (s : Cfg × List String) :
    f (runChecks cs s).1 = f s.1 := by
  induction cs generalizing s with
  | nil => rfl
  | cons fc cs ih =>
    rw [runChecks_cons]
    have h1 := hf fc (by simp)
    have h2 : ∀ fc' ∈ cs, ∀ c, f (fc'.fix c) = f c := fun fc' hm => hf fc' (by simp [hm])
    split
    · rw [ih h2]
      exact h1 _
    · exact ih h2 _

/-- The reset-key list produced by a run of independent checks (each fix
leaves every other check's test unchanged, keys pairwise distinct, none
already reported): exactly the keys of the failing checks, in check
order. -/
theorem runChecks_keys {Cfg : Type} (cs : List (FieldCheck Cfg)) (c : Cfg)
    (ks : List String)
    (hind : ∀ a ∈ cs, ∀ b ∈ cs, a.key ≠ b.key → ∀ x, b.test (a.fix x) = b.test x)
    (hnd : (cs.map FieldCheck.key).Nodup)
    (hdisj : ∀ fc ∈ cs, fc.key ∉ ks) :
    (runChecks cs (c, ks)).2 = ks ++ (cs.filter (fun fc => fc.test c)).map FieldCheck.key := by
  induction cs generalizing c ks with
  | nil => simp [runChecks]
  | cons fc cs ih =>
    rw [runChecks_cons]
    simp only [List.map_cons, List.nodup_cons] at hnd
    have hdisj' : ∀ fc' ∈ cs, fc'.key ∉ ks ++ [fc.key] := by
      intro fc' hm
      simp only [List.mem_append, List.mem_singleton]
      rintro (h | h)
      · exact hdisj fc' (by simp [hm]) h
      · exact hnd.1 (h ▸ List.mem_map_of_mem FieldCheck.key hm)
    have hind' : ∀ a ∈ cs, ∀ b ∈ cs, a.key ≠ b.key → ∀ x, b.test (a.fix x) = b.test x :=
      fun a ha b hb => hind a (by simp [ha]) b (by simp [hb])
    by_cases ht : fc.test c
    · rw [if_pos (by simpa using ht), pushKey_not_mem (hdisj fc (by simp))]
      rw [ih (fc.fix c) (ks ++ [fc.key]) hind' hnd.2 hdisj']
      have hsame : cs.filter (fun fc' => fc'.test (fc.fix c))
          = cs.filter (fun fc' => fc'.test c) := by
        apply List.filter_congr
        intro fc' hm
        have hne : fc.key ≠ fc'.key := by
          intro he
          exact hnd.1 (he ▸ List.mem_map_of_mem FieldCheck.key hm)
        rw [hind fc (by simp) fc' (by simp [hm]) hne c]
      rw [hsame, List.filter_cons_of_pos (by simpa using ht)]
      simp
    · rw [if_neg (by simpa using ht)]
      rw [ih c ks hind' hnd.2 (fun fc' hm => hdisj fc' (by simp [hm]))]
      rw [List.filter_cons_of_neg (by simpa using ht)]

theorem setKeyVal_eq_map (o : List (String × JVal)) (k : String) (v : JVal) :
    setKeyVal o k v = o.map (fun p => if p.1 = k then (p.1, v) else p) := rfl

/-- The merge loop of `loadAndValidateConfigFile`: starting from an object
whose keys all belong to `dk`, folding the loaded entries overwrites each
known key with its (unique) loaded value and leaves the rest. -/
theorem mergeFold_eq (dk : List String) (l : List (String × JVal)) :
    ∀ acc : List (String × JVal), (∀ p ∈ acc, p.1 ∈ dk) → (l.map Prod.fst).Nodup →
    l.foldl (fun acc p => if dk.contains p.1 then setKeyVal acc p.1 p.2 else acc) acc
      = acc.map (fun p => (p.1, (l.lookup p.1).getD p.2)) := by
  induction l with
  | nil =>
    intro acc _ _
    simp [List.lookup]
  | cons q l ih =>
    intro acc hacc hnd
    obtain ⟨k, v⟩ := q
    simp only [List.map_cons, List.nodup_cons] at hnd
    rw [List.foldl_cons]
    dsimp only
    by_cases hk : dk.contains k
    · rw [if_pos hk, setKeyVal_eq_map]
      have hacc' : ∀ p ∈ acc.map (fun p => if p.1 = k then (p.1, v) else p), p.1 ∈ dk := by
        intro p hp
        simp only [List.mem_map] at hp
        obtain ⟨p', hp', he⟩ := hp
        have hm := hacc p' hp'
        split at he <;> rw [← he] <;> exact hm
      rw [ih _ hacc' hnd.2, List.map_map]
      apply List.map_congr_left
      intro p _
      simp only [Function.comp]
      by_cases hpk : p.1 = k
      · rw [if_pos hpk]
        have hl : l.lookup k = none := by
          rw [List.lookup_eq_none_iff]
          intro a ha
          simp only [bne_iff_ne, ne_eq]
          intro h
          exact hnd.1 (h ▸ List.mem_map_of_mem Prod.fst ha)
        simp [List.lookup, hpk, hl]
      · rw [if_neg hpk]
        have hb : (p.1 == k) = false := beq_eq_false_iff_ne.mpr hpk
        simp [List.lookup, hb]
    · rw [if_neg hk]
      rw [ih _ hacc hnd.2]
      apply List.map_congr_left
      intro p hp
      have hpk : p.1 ≠ k := by
        intro he
        exact hk (List.elem_iff.mpr (he ▸ hacc p hp))
      have hb : (p.1 == k) = false := beq_eq_false_iff_ne.mpr hpk
      simp [List.lookup, hb]

/-- Step 3 of the loader, characterized: with a well-formed parsed object
(no duplicate keys, which `JSON.parse` guarantees), the merged object keeps
the defaults' keys in order, takes the file's value for every key the
defaults know, keeps the default elsewhere, and the `fileNeedsUpdate` flag
is set exactly when some default key is missing from the file. -/
theorem any_map_fst (d : List (String × JVal)) (g : String → Bool) :
    (d.map Prod.fst).any g = d.any (fun p => g p.1) := by
  induction d with
  | nil => rfl
  | cons p t ih => simp [List.any_cons, ih]

theorem mergeStep_eq (d l : List (String × JVal)) (hnd : (l.map Prod.fst).Nodup) :
    mergeStep d l
      = (d.map (fun p => (p.1, (l.lookup p.1).getD p.2)),
         d.any (fun p => !(l.map Prod.fst).contains p.1)) := by
  rw [mergeStep]
  rw [mergeFold_eq (d.map Prod.fst) l d (fun p hp => List.mem_map_of_mem Prod.fst hp) hnd]
  rw [any_map_fst]

theorem joinLines_two (xs : List (List Char)) (a b : List Char) :
    joinLinesCh (xs ++ [a, b]) = joinLinesCh (xs ++ [a ++ '\n' :: b]) := by
  induction xs with
  | nil => rfl
  | cons x xs ih =>
    have h1 : joinLinesCh (x :: (xs ++ [a, b]))
        = x ++ '\n' :: joinLinesCh (xs ++ [a, b]) := by
      cases xs <;> rfl
    have h2 : joinLinesCh (x :: (xs ++ [a ++ '\n' :: b]))
        = x ++ '\n' :: joinLinesCh (xs ++ [a ++ '\n' :: b]) := by
      cases xs <;> rfl
    rw [List.cons_append, h1, List.cons_append, h2, ih]

theorem joinLines_splitGo (rest : List Char) :
    ∀ done cur, joinLinesCh (splitLinesGo done cur rest)
      = joinLinesCh (done.reverse ++ [cur.reverse ++ rest]) := by
  induction rest with
  | nil =>
    intro done cur
    rw [splitLinesGo]
    simp
  | cons c rest ih =>
    intro done cur
    rw [splitLinesGo]
    by_cases hc : c = '\n'
    · rw [if_pos hc, ih]
      subst hc
      rw [show ((cur.reverse :: done).reverse ++ [([] : List Char).reverse ++ rest])
            = done.reverse ++ [cur.reverse, rest] by simp]
      exact joinLines_two done.reverse cur.reverse rest
    · rw [if_neg hc, ih]
      congr 2
      simp

/-- Joining the split lines reconstructs the original text. -/
theorem joinLines_splitLines (l : List Char) :
    joinLinesCh (splitLinesCh l) = l := by
  rw [splitLinesCh, joinLines_splitGo]
  rfl

theorem mem_joinLines {c : Char} {l' : List Char} {ls : List (List Char)}
    (hl : l' ∈ ls) (hc : c ∈ l') : c ∈ joinLinesCh ls := by
  induction ls with
  | nil => cases hl
  | cons x ls ih =>
    rcases List.mem_cons.mp hl with rfl | hl'
    · cases ls with
      | nil => exact hc
      | cons y t =>
        have h1 : joinLinesCh (l' :: y :: t) = l' ++ '\n' :: joinLinesCh (y :: t) := rfl
        rw [h1]
        exact List.mem_append_left _ hc
    · cases ls with
      | nil => cases hl'
      | cons y t =>
        have h1 : joinLinesCh (x :: y :: t) = x ++ '\n' :: joinLinesCh (y :: t) := rfl
        rw [h1]
        exact List.mem_append_right _ (List.mem_cons_of_mem _ (ih hl'))

/-- A line without a slash has no line comment to cut. -/
theorem cutLC_id {line : List Char} (h : '/' ∉ line) :
    ∀ prev, cutLC prev line = line := by
  induction line with
  | nil => intro prev; rfl
  | cons c rest ih =>
    intro prev
    have hc : c ≠ '/' := fun he => h (he ▸ List.mem_cons_self c rest)
    rw [cutLC, if_neg (by simp [hc]), ih (fun hm => h (List.mem_cons_of_mem c hm))]

theorem noSlashStar_of_no_slash {l : List Char} (h : '/' ∉ l) :
    noSlashStar l = true := by
  induction l with
  | nil => rfl
  | cons c rest ih =>
    have hc : c ≠ '/' := fun he => h (he ▸ List.mem_cons_self c rest)
    rw [noSlashStar]
    simp only [Bool.and_eq_true, Bool.not_eq_true']
    exact ⟨by simp [hc], ih (fun hm => h (List.mem_cons_of_mem c hm))⟩

/-- The line-comment pass leaves slash-free text unchanged. -/
theorem stripLineChars_id {l : List Char} (h : '/' ∉ l) :
    stripLineChars l = l := by
  have hmap : (splitLinesCh l).map (cutLC none) = splitLinesCh l := by
    conv_rhs => rw [← List.map_id (splitLinesCh l)]
    apply List.map_congr_left
    intro line hm
    refine cutLC_id ?_ none
    intro hc
    exact h (joinLines_splitLines l ▸ mem_joinLines hm hc)
  rw [stripLineChars, hmap, joinLines_splitLines]

theorem trimLeftChars_idem (l : List Char) :
    trimLeftChars (trimLeftChars l) = trimLeftChars l := by
  induction l with
  | nil => rfl
  | cons c rest ih =>
    rw [trimLeftChars]
    split
    · exact ih
    · rw [trimLeftChars, if_neg (by assumption)]

theorem trimLeftChars_head? : ∀ {l : List Char} {c : Char},
    (trimLeftChars l).head? = some c → jsIsSpace c = false := by
  intro l
  induction l with
  | nil => intro c h; cases h
  | cons a rest ih =>
    intro c h
    rw [trimLeftChars] at h
    split at h
    · exact ih h
    · rename_i hns
      rw [List.head?_cons] at h
      injection h with h2
      subst h2
      simpa using hns

theorem trimLeftChars_id_of_head {l : List Char} {c : Char}
    (hh : l.head? = some c) (hc : jsIsSpace c = false) : trimLeftChars l = l := by
  cases l with
  | nil => rfl
  | cons a rest =>
    cases hh
    rw [trimLeftChars, if_neg (by simp [hc])]

theorem trimLeftChars_suffix (l : List Char) : trimLeftChars l <:+ l := by
  induction l with
  | nil => exact List.suffix_refl []
  | cons c rest ih =>
    rw [trimLeftChars]
    split
    · exact ih.trans (List.suffix_cons c rest)
    · exact List.suffix_refl _

theorem trimRightChars_getLast? {l : List Char} {c : Char}
    (h : (trimRightChars l).getLast? = some c) : jsIsSpace c = false := by
  rw [trimRightChars, ← List.head?_reverse, List.reverse_reverse] at h
  exact trimLeftChars_head? h

theorem trimRightChars_id_of_getLast {l : List Char} {c : Char}
    (hh : l.getLast? = some c) (hc : jsIsSpace c = false) :
    trimRightChars l = l := by
  rw [trimRightChars, trimLeftChars_id_of_head (by rw [List.head?_reverse]; exact hh) hc,
    List.reverse_reverse]

theorem jsTrim_nil : jsTrim [] = [] := rfl

/-- `trim` is idempotent. -/
theorem jsTrim_idem (l : List Char) : jsTrim (jsTrim l) = jsTrim l := by
  by_cases hz : jsTrim l = []
  · rw [hz]
    rfl
  · obtain ⟨d, hlast⟩ : ∃ d, (jsTrim l).getLast? = some d := by
      rcases he : (jsTrim l).getLast? with _ | d
      · exact absurd (List.getLast?_eq_none_iff.mp he) hz
      · exact ⟨d, rfl⟩
    have hsuff : jsTrim l <:+ trimRightChars l := trimLeftChars_suffix _
    obtain ⟨w, hw⟩ := hsuff
    have hlast' : (trimRightChars l).getLast? = some d := by
      rw [← hw, List.getLast?_append_of_ne_nil w hz]
      exact hlast
    have hd : jsIsSpace d = false := trimRightChars_getLast? hlast'
    show trimLeftChars (trimRightChars (jsTrim l)) = jsTrim l
    rw [trimRightChars_id_of_getLast hlast hd]
    show trimLeftChars (trimLeftChars (trimRightChars l)) = jsTrim l
    rw [trimLeftChars_idem]
    rfl

theorem mem_of_mem_trimLeft {c : Char} {l : List Char}
    (h : c ∈ trimLeftChars l) : c ∈ l :=
  (trimLeftChars_suffix l).subset h

theorem mem_of_mem_jsTrim {c : Char} {l : List Char} (h : c ∈ jsTrim l) : c ∈ l := by
  rw [jsTrim] at h
  have h1 := mem_of_mem_trimLeft h
  rw [trimRightChars, List.mem_reverse] at h1
  exact List.mem_reverse.mp (mem_of_mem_trimLeft h1)

/-- `fixTrailingCommas` is the identity on comma-free text. -/
theorem fixTCChars_id {l : List Char} (h : ',' ∉ l) :
    ∀ fuel, fixTCChars fuel l = l := by
  induction l with
  | nil => intro fuel; cases fuel <;> rfl
  | cons c rest ih =>
    intro fuel
    cases fuel with
    | zero => rfl
    | succ f =>
      have hc : ¬c = ',' := fun he => h (he ▸ List.mem_cons_self c rest)
      rw [fixTCChars, if_neg hc, ih (fun hm => h (List.mem_cons_of_mem c hm)) f]

set_option maxHeartbeats 2000000 in
/-- Every `validateMainConfig` check tests only its own field, and every
fix writes only its own field, so fixes never change other checks'
outcomes. -/
theorem mainChecks_indep : ∀ a ∈ mainChecks, ∀ b ∈ mainChecks,
    a.key ≠ b.key → ∀ x, b.test (a.fix x) = b.test x := by
  intro a ha b hb hne x
  fin_cases ha <;> fin_cases hb <;> first | exact absurd rfl hne | rfl

theorem weatherChecksA_indep : ∀ a ∈ weatherChecksA, ∀ b ∈ weatherChecksA,
    a.key ≠ b.key → ∀ x, b.test (a.fix x) = b.test x := by
  intro a ha b hb hne x
  fin_cases ha <;> fin_cases hb <;> first | exact absurd rfl hne | rfl

theorem weatherWeightChecks_indep : ∀ a ∈ weatherWeightChecks, ∀ b ∈ weatherWeightChecks,
    a.key ≠ b.key → ∀ x, b.test (a.fix x) = b.test x := by
  intro a ha b hb hne x
  fin_cases ha <;> fin_cases hb <;> first | exact absurd rfl hne | rfl

/-- The reset keys of `validateMainConfig` are exactly the keys of the
failing checks, in the order the source checks the fields. -/
theorem validateMainConfig_keys (c : MainCfg) :
    (validateMainConfig c).2
      = (mainChecks.filter (fun fc => fc.test c)).map FieldCheck.key := by
  rw [validateMainConfig,
    runChecks_keys mainChecks c [] mainChecks_indep (by decide) (by simp)]
  rfl

/-- Whether the `exclude_seasons` validation reports a reset: always for a
non-array; for an array when the filter dropped an entry or the filtered
list still has at least seven entries. -/
def weatherExcludeReset (c : WeatherCfg) : Bool :=
  match c.exclude_seasons with
  | .jarr l =>
    decide ((l.filter isValidSeasonIdx).length ≠ l.length)
      || decide (7 ≤ (l.filter isValidSeasonIdx).length)
  | _ => true

theorem excludeSeasonsStep_arr {s : WeatherCfg × List String} {l : List JVal}
    (h : s.1.exclude_seasons = JVal.jarr l) :
    excludeSeasonsStep s
      = (if 7 ≤ (l.filter isValidSeasonIdx).length then
          ({s.1 with exclude_seasons := JVal.jarr ((l.filter isValidSeasonIdx).filter (fun v => v ≠ JVal.jnum 6))},
            pushKey (if (l.filter isValidSeasonIdx).length ≠ l.length then
                pushKey s.2 "exclude_seasons" else s.2) "exclude_seasons")
         else
          ({s.1 with exclude_seasons := JVal.jarr (l.filter isValidSeasonIdx)},
            if (l.filter isValidSeasonIdx).length ≠ l.length then
              pushKey s.2 "exclude_seasons" else s.2)) := by
  rw [excludeSeasonsStep, h]

theorem excludeSeasonsStep_pres (f : WeatherCfg → JVal)
    (hf : ∀ c v, f {c with exclude_seasons := v} = f c) (s : WeatherCfg × List String) :
    f (excludeSeasonsStep s).1 = f s.1 := by
  rw [excludeSeasonsStep]
  rcases s.1.exclude_seasons with _ | _ | _ | _ | l | _ <;> simp only
  case jarr =>
    split <;> exact hf _ _
  all_goals exact hf _ _

theorem excludeSeasonsStep_keys (s : WeatherCfg × List String)
    (hnm : "exclude_seasons" ∉ s.2) :
    (excludeSeasonsStep s).2
      = s.2 ++ (if weatherExcludeReset s.1 then ["exclude_seasons"] else []) := by
  rw [excludeSeasonsStep]
  unfold weatherExcludeReset
  rcases s.1.exclude_seasons with _ | _ | _ | _ | l | _ <;> simp only
  case jarr =>
    by_cases h1 : (l.filter isValidSeasonIdx).length ≠ l.length
    · rw [if_pos h1, pushKey_not_mem hnm]
      by_cases h2 : 7 ≤ (l.filter isValidSeasonIdx).length
      · rw [if_pos h2, pushKey, if_pos (by simp)]
        simp [h1]
      · rw [if_neg h2]
        simp [h1]
    · rw [if_neg h1]
      by_cases h2 : 7 ≤ (l.filter isValidSeasonIdx).length
      · rw [if_pos h2, pushKey_not_mem hnm]
        simp [h1, h2]
      · rw [if_neg h2]
        simp [h1, h2]
  all_goals rw [pushKey_not_mem hnm]
  all_goals simp

theorem key_not_mem_filter_map {Cfg : Type} (cs : List (FieldCheck Cfg))
    (p : FieldCheck Cfg → Bool) (k : String) (h : k ∉ cs.map FieldCheck.key) :
    k ∉ (cs.filter p).map FieldCheck.key := by
  intro hm
  obtain ⟨fc, hfc, he⟩ := List.mem_map.mp hm
  exact h (he ▸ List.mem_map_of_mem _ (List.mem_of_mem_filter hfc))

set_option maxHeartbeats 1000000 in
/-- The reset keys of `validateWeatherConfig`: the failing boolean and
bounded-integer checks in source order, then (possibly) `exclude_seasons`,
then the failing season-weight checks in `weightKeys` order. -/
theorem validateWeatherConfig_keys (c : WeatherCfg) :
    (validateWeatherConfig c).2
      = ((weatherChecksA.filter (fun fc => fc.test c)).map FieldCheck.key)
        ++ ((if weatherExcludeReset c then ["exclude_seasons"] else [])
        ++ ((weatherWeightChecks.filter (fun fc => fc.test c)).map FieldCheck.key)) := by
  have hAk : (runChecks weatherChecksA (c, [])).2
      = (weatherChecksA.filter (fun fc => fc.test c)).map FieldCheck.key := by
    rw [runChecks_keys weatherChecksA c [] weatherChecksA_indep (by decide) (by simp)]
    rfl
  have hAexcl : (runChecks weatherChecksA (c, [])).1.exclude_seasons
      = c.exclude_seasons :=
    runChecks_field_pres _ _ (by intro fc hm x; fin_cases hm <;> rfl) _
  have hS : (excludeSeasonsStep (runChecks weatherChecksA (c, []))).1.Summer = c.Summer := by
    rw [excludeSeasonsStep_pres (fun x => x.Summer) (fun c v => rfl)]
    exact runChecks_field_pres _ _ (by intro fc hm x; fin_cases hm <;> rfl) _
  have hAu : (excludeSeasonsStep (runChecks weatherChecksA (c, []))).1.Autumn = c.Autumn := by
    rw [excludeSeasonsStep_pres (fun x => x.Autumn) (fun c v => rfl)]
    exact runChecks_field_pres _ _ (by intro fc hm x; fin_cases hm <;> rfl) _
  have hW : (excludeSeasonsStep (runChecks weatherChecksA (c, []))).1.Winter = c.Winter := by
    rw [excludeSeasonsStep_pres (fun x => x.Winter) (fun c v => rfl)]
    exact runChecks_field_pres _ _ (by intro fc hm x; fin_cases hm <;> rfl) _
  have hSp : (excludeSeasonsStep (runChecks weatherChecksA (c, []))).1.Spring = c.Spring := by
    rw [excludeSeasonsStep_pres (fun x => x.Spring) (fun c v => rfl)]
    exact runChecks_field_pres _ _ (by intro fc hm x; fin_cases hm <;> rfl) _
  have hLA : (excludeSeasonsStep (runChecks weatherChecksA (c, []))).1.LateAutumn
      = c.LateAutumn := by
    rw [excludeSeasonsStep_pres (fun x => x.LateAutumn) (fun c v => rfl)]
    exact runChecks_field_pres _ _ (by intro fc hm x; fin_cases hm <;> rfl) _
  have hES : (excludeSeasonsStep (runChecks weatherChecksA (c, []))).1.EarlySpring
      = c.EarlySpring := by
    rw [excludeSeasonsStep_pres (fun x => x.EarlySpring) (fun c v => rfl)]
    exact runChecks_field_pres _ _ (by intro fc hm x; fin_cases hm <;> rfl) _
  have hSt : (excludeSeasonsStep (runChecks weatherChecksA (c, []))).1.Storm = c.Storm := by
    rw [excludeSeasonsStep_pres (fun x => x.Storm) (fun c v => rfl)]
    exact runChecks_field_pres _ _ (by intro fc hm x; fin_cases hm <;> rfl) _
  have hwt : ∀ fc ∈ weatherWeightChecks,
      fc.test (excludeSeasonsStep (runChecks weatherChecksA (c, []))).1 = fc.test c := by
    intro fc hm
    fin_cases hm <;> simp only [hS, hAu, hW, hSp, hLA, hES, hSt]
  have hnm : "exclude_seasons" ∉ (runChecks weatherChecksA (c, [])).2 := by
    rw [hAk]
    exact key_not_mem_filter_map _ _ _ (by decide)
  have hres : weatherExcludeReset (runChecks weatherChecksA (c, [])).1
      = weatherExcludeReset c := by
    unfold weatherExcludeReset
    rw [hAexcl]
  have hks : (excludeSeasonsStep (runChecks weatherChecksA (c, []))).2
      = (weatherChecksA.filter (fun fc => fc.test c)).map FieldCheck.key
        ++ (if weatherExcludeReset c then ["exclude_seasons"] else []) := by
    rw [excludeSeasonsStep_keys _ hnm, hAk, hres]
  have hdisj : ∀ fc ∈ weatherWeightChecks,
      fc.key ∉ (excludeSeasonsStep (runChecks weatherChecksA (c, []))).2 := by
    intro fc hm
    rw [hks]
    simp only [List.mem_append]
    rintro (h | h)
    · have hnk : fc.key ∉ weatherChecksA.map FieldCheck.key := by
        fin_cases hm <;> decide
      exact key_not_mem_filter_map _ _ _ hnk h
    · have hne : fc.key ≠ "exclude_seasons" := by
        fin_cases hm <;> decide
      revert h
      split
      · simp [hne]
      · simp
  rw [validateWeatherConfig]
  rw [show excludeSeasonsStep (runChecks weatherChecksA (c, []))
      = ((excludeSeasonsStep (runChecks weatherChecksA (c, []))).1,
         (excludeSeasonsStep (runChecks weatherChecksA (c, []))).2) from rfl]
  rw [runChecks_keys weatherWeightChecks _ _ weatherWeightChecks_indep (by decide)
    (fun fc hm => hdisj fc hm)]
  rw [hks, List.filter_congr hwt, List.append_assoc]

theorem runChecks_id {Cfg : Type} (cs : List (FieldCheck Cfg)) (s : Cfg × List String)
    (h : ∀ fc ∈ cs, fc.test s.1 = false) : runChecks cs s = s := by
  induction cs with
  | nil => rfl
  | cons fc cs ih =>
    rw [runChecks_cons, if_neg (by simp [h fc (by simp)])]
    exact ih (fun fc' hm => h fc' (by simp [hm]))

theorem runChecks_append {Cfg : Type} (as bs : List (FieldCheck Cfg))
    (s : Cfg × List String) :
    runChecks (as ++ bs) s = runChecks bs (runChecks as s) := by
  rw [runChecks, runChecks, runChecks, List.foldl_append]

/-- C1: For the weather-config validator applied to any settings whose
`exclude_seasons` field is an array: entries that are not integers in
`[0,6]` are dropped (with the field reported reset when any entry was
dropped), and whenever the filtered list contains every index in `[0,6]`
the validator removes exactly the reserved index `6` (Storm), leaves the
other entries intact, and includes `exclude_seasons` in the reset-key list;
in particular input `[0,1,2,3,4,5,6]` yields `[0,1,2,3,4,5]` with the field
reported reset. -/
theorem exclude_seasons_full_range_removes_storm (c : WeatherCfg) (l : List JVal)
    (h : c.exclude_seasons = JVal.jarr l) :
    ((validateWeatherConfig c).1.exclude_seasons
      = (if 7 ≤ (l.filter isValidSeasonIdx).length then
          JVal.jarr ((l.filter isValidSeasonIdx).filter (fun v => v ≠ JVal.jnum 6))
         else JVal.jarr (l.filter isValidSeasonIdx)))
    ∧ ((l.filter isValidSeasonIdx).length ≠ l.length →
        "exclude_seasons" ∈ (validateWeatherConfig c).2)
    ∧ ((∀ v ∈ [JVal.jnum 0, JVal.jnum 1, JVal.jnum 2, JVal.jnum 3,
          JVal.jnum 4, JVal.jnum 5, JVal.jnum 6], v ∈ l.filter isValidSeasonIdx) →
        (validateWeatherConfig c).1.exclude_seasons
          = JVal.jarr ((l.filter isValidSeasonIdx).filter (fun v => v ≠ JVal.jnum 6))
        ∧ "exclude_seasons" ∈ (validateWeatherConfig c).2)
    ∧ validateWeatherConfig {weatherDefaultCfg with
        exclude_seasons := JVal.jarr [JVal.jnum 0, JVal.jnum 1, JVal.jnum 2,
          JVal.jnum 3, JVal.jnum 4, JVal.jnum 5, JVal.jnum 6]}
      = ({weatherDefaultCfg with
          exclude_seasons := JVal.jarr [JVal.jnum 0, JVal.jnum 1, JVal.jnum 2,
            JVal.jnum 3, JVal.jnum 4, JVal.jnum 5]},
         ["exclude_seasons"]) := by
  have hAexcl : (runChecks weatherChecksA (c, [])).1.exclude_seasons
      = c.exclude_seasons :=
    runChecks_field_pres _ _ (by intro fc hm x; fin_cases hm <;> rfl) _
  have hstep := excludeSeasonsStep_arr (s := runChecks weatherChecksA (c, []))
    (hAexcl.trans h)
  have hWpres : ∀ s, (runChecks weatherWeightChecks s).1.exclude_seasons
      = s.1.exclude_seasons :=
    fun s => runChecks_field_pres _ _ (by intro fc hm x; fin_cases hm <;> rfl) s
  have hfield : (validateWeatherConfig c).1.exclude_seasons
      = (if 7 ≤ (l.filter isValidSeasonIdx).length then
          JVal.jarr ((l.filter isValidSeasonIdx).filter (fun v => v ≠ JVal.jnum 6))
         else JVal.jarr (l.filter isValidSeasonIdx)) := by
    rw [validateWeatherConfig, hWpres, hstep]
    by_cases h7 : 7 ≤ (l.filter isValidSeasonIdx).length
    · rw [if_pos h7, if_pos h7]
    · rw [if_neg h7, if_neg h7]
  have hmemOf : weatherExcludeReset c = true →
      "exclude_seasons" ∈ (validateWeatherConfig c).2 := by
    intro hr
    rw [validateWeatherConfig_keys c, hr]
    simp
  refine ⟨hfield, ?_, ?_, by decide⟩
  · intro hdrop
    apply hmemOf
    unfold weatherExcludeReset
    rw [h]
    simp [hdrop]
  · intro hall
    have h7 : 7 ≤ (l.filter isValidSeasonIdx).length := by
      have hsub : ([JVal.jnum 0, JVal.jnum 1, JVal.jnum 2, JVal.jnum 3, JVal.jnum 4,
          JVal.jnum 5, JVal.jnum 6] : List JVal).toFinset
          ⊆ (l.filter isValidSeasonIdx).toFinset := by
        intro v hv
        rw [List.mem_toFinset] at hv ⊢
        exact hall v hv
      have hcard := Finset.card_le_card hsub
      have hc7 : ([JVal.jnum 0, JVal.jnum 1, JVal.jnum 2, JVal.jnum 3, JVal.jnum 4,
          JVal.jnum 5, JVal.jnum 6] : List JVal).toFinset.card = 7 := by decide
      have hlen := (l.filter isValidSeasonIdx).toFinset_card_le
      omega
    refine ⟨by rw [hfield, if_pos h7], ?_⟩
    apply hmemOf
    unfold weatherExcludeReset
    rw [h]
    simp [h7]

/-- C1 at a concrete input: the array `[0, 9]` loses the invalid entry `9`
and the field is reported reset. -/
theorem exclude_seasons_full_range_removes_storm_witness :
    ({weatherDefaultCfg with exclude_seasons := JVal.jarr [JVal.jnum 0, JVal.jnum 9]}
        : WeatherCfg).exclude_seasons = JVal.jarr [JVal.jnum 0, JVal.jnum 9]
    ∧ "exclude_seasons" ∈ (validateWeatherConfig {weatherDefaultCfg with
        exclude_seasons := JVal.jarr [JVal.jnum 0, JVal.jnum 9]}).2 :=
  ⟨rfl,
   (exclude_seasons_full_range_removes_storm
      {weatherDefaultCfg with exclude_seasons := JVal.jarr [JVal.jnum 0, JVal.jnum 9]}
      [JVal.jnum 0, JVal.jnum 9] rfl).2.1 (by decide)⟩

set_option maxRecDepth 400000 in
/-- C2: Running each bundled default template text through the load pipeline
(sanitize, fix trailing commas, parse, merge against defaults, validate)
yields exactly the in-memory default object of that config kind, with an
empty reset-key list and the `fileNeedsUpdate` flag false. -/
theorem default_templates_round_trip :
    loadPipeline (some DEFAULT_MAIN_CONFIG_JSONC) mainDefaultsObj validateMainObj
      = (mainDefaultsObj, [], false)
    ∧ loadPipeline (some DEFAULT_WEATHER_CONFIG_JSONC) weatherDefaultsObj validateWeatherObj
      = (weatherDefaultsObj, [], false) := by
  constructor
  · rw [loadPipeline]
    rw [stripJsonComments_main_eq]
    rw [show fixTrailingCommas sanitizedMainStr = sanitizedMainStr from by decide]
    rw [show jsTrimS sanitizedMainStr = sanitizedMainStr from by decide]
    rw [show parseJson sanitizedMainStr = some (.jobj (mainDefaultsObj)) from by decide]
    decide
  · rw [loadPipeline]
    rw [stripJsonComments_weather_eq]
    rw [show fixTrailingCommas sanitizedWeatherStr = sanitizedWeatherStr from by decide]
    rw [show jsTrimS sanitizedWeatherStr = sanitizedWeatherStr from by decide]
    rw [show parseJson sanitizedWeatherStr = some (.jobj weatherParsedObj) from by decide]
    decide

/-- C3 counterexample: the in-range non-integer `111/2 = 55.5` is NOT floored
by the current validator: `validateMainConfig` resets it to the boolean
default `false` and reports the key (only the legacy loader floors it to
`55`). -/
theorem pmc_chat_infloat_reset_not_floored :
    (1 ≤ ratNormalize 111 2 ∧ ratNormalize 111 2 ≤ 100 ∧ (ratNormalize 111 2).den ≠ 1)
    ∧ validateMainConfig {mainDefaultCfg with
        disablePMC_ChatResponse := JVal.jnum (ratNormalize 111 2)}
      = ({mainDefaultCfg with disablePMC_ChatResponse := JVal.jbool false},
         ["disablePMC_ChatResponse"])
    ∧ legacyValidatePmc (JVal.jnum (ratNormalize 111 2)) = JVal.jnum 55 := by
  refine ⟨⟨by decide, by decide, by decide⟩, by decide, by decide⟩

/-- C3 amended: `disablePMC_ChatResponse` keeps a boolean unchanged, keeps an
integer in `[1,100]` unchanged, and resets everything else (any non-boolean
non-integer value, any out-of-range number — including in-range floats) to
the boolean default `false`, reporting the key; the flooring of in-range
numbers exists only in the legacy loader `loadOrCreateConfig`. -/
theorem pmc_chat_validation_characterized (v : JVal) :
    (isBoolJ v = true →
      validateMainConfig {mainDefaultCfg with disablePMC_ChatResponse := v}
        = ({mainDefaultCfg with disablePMC_ChatResponse := v}, []))
    ∧ (∀ q : Rat, v = JVal.jnum q → q.den = 1 → 1 ≤ q → q ≤ 100 →
        validateMainConfig {mainDefaultCfg with disablePMC_ChatResponse := v}
          = ({mainDefaultCfg with disablePMC_ChatResponse := v}, []))
    ∧ (pmcChatOk v = false →
        validateMainConfig {mainDefaultCfg with disablePMC_ChatResponse := v}
          = ({mainDefaultCfg with disablePMC_ChatResponse := JVal.jbool false},
             ["disablePMC_ChatResponse"]))
    ∧ (∀ q : Rat, 1 ≤ q → q ≤ 100 →
        legacyValidatePmc (JVal.jnum q)
          = JVal.jnum (((q.num.fdiv (q.den : Int)) : Int) : Rat)) := by
  refine ⟨?_, ?_, ?_, ?_⟩
  · intro hb
    rcases v with _ | b | q | s | l | o
    · simp [isBoolJ] at hb
    · cases b <;> decide
    · simp [isBoolJ] at hb
    · simp [isBoolJ] at hb
    · simp [isBoolJ] at hb
    · simp [isBoolJ] at hb
  · intro q hv hden h1 h100
    subst hv
    rw [validateMainConfig]
    refine runChecks_id _ _ ?_
    intro fc hm
    fin_cases hm <;>
      first
        | rfl
        | simp [pmcChatOk, isBoolJ, isIntInRange, hden, h1, h100]
  · intro hbad
    rw [validateMainConfig]
    rw [show mainChecks = mainChecks.take 17 ++ mainChecks.drop 17
        from (List.take_append_drop 17 mainChecks).symm]
    rw [runChecks_append]
    rw [runChecks_id (mainChecks.take 17)
      (({mainDefaultCfg with disablePMC_ChatResponse := v}, []) : MainCfg × List String)
      (by intro fc hm; fin_cases hm <;> rfl)]
    rw [show mainChecks.drop 17
        = (⟨"disablePMC_ChatResponse", fun c => !pmcChatOk c.disablePMC_ChatResponse,
            fun c => {c with disablePMC_ChatResponse := JVal.jbool false}⟩
            : FieldCheck MainCfg)
          :: mainChecks.drop 18 from rfl]
    rw [runChecks_cons]
    dsimp only
    rw [hbad]
    rw [if_pos (show (!false) = true from rfl)]
    decide
  · intro q h1 h100
    have hc : (decide (q < 1) || decide (100 < q)) = false := by
      rw [decide_eq_false (not_lt.mpr h1), decide_eq_false (not_lt.mpr h100)]
      rfl
    simp only [legacyValidatePmc, hc]
    rfl

/-- C3 at concrete inputs: the integer `55` is retained and the string
`"yes"` resets to `false` with the key reported. -/
theorem pmc_chat_validation_characterized_witness :
    validateMainConfig {mainDefaultCfg with disablePMC_ChatResponse := JVal.jnum 55}
      = ({mainDefaultCfg with disablePMC_ChatResponse := JVal.jnum 55}, [])
    ∧ validateMainConfig {mainDefaultCfg with disablePMC_ChatResponse := JVal.jstr "yes"}
      = ({mainDefaultCfg with disablePMC_ChatResponse := JVal.jbool false},
         ["disablePMC_ChatResponse"]) :=
  ⟨(pmc_chat_validation_characterized (JVal.jnum 55)).2.1 55 rfl (by decide) (by decide)
      (by decide),
   (pmc_chat_validation_characterized (JVal.jstr "yes")).2.2.1 (by decide)⟩

/-- C4: the loader never lets a read or parse failure escape: when the read
throws (`none`), when the sanitized content is empty or whitespace-only, and
when JSON parsing of the sanitized content fails, the load returns the
defaults with no reset keys and no rewrite, for every descriptor. -/
theorem load_failures_return_defaults
    (d : List (String × JVal))
    (vf : List (String × JVal) → List (String × JVal) × List String) (raw : String) :
    loadPipeline none d vf = (d, [], false)
    ∧ (jsTrimS (fixTrailingCommas (stripJsonComments raw)) = "" →
        loadPipeline (some raw) d vf = (d, [], false))
    ∧ (parseJson (fixTrailingCommas (stripJsonComments raw)) = none →
        loadPipeline (some raw) d vf = (d, [], false)) := by
  refine ⟨rfl, ?_, ?_⟩
  · intro h
    rw [loadPipeline, if_pos h]
  · intro h
    rw [loadPipeline]
    by_cases he : jsTrimS (fixTrailingCommas (stripJsonComments raw)) = ""
    · rw [if_pos he]
    · rw [if_neg he, h]

/-- C4 at concrete inputs: a comment-only file sanitizes to the empty string
and loads as the defaults; a file that is not JSON fails to parse and loads
as the defaults. -/
theorem load_failures_return_defaults_witness :
    (jsTrimS (fixTrailingCommas (stripJsonComments "// only a comment")) = ""
      ∧ loadPipeline (some "// only a comment") mainDefaultsObj validateMainObj
          = (mainDefaultsObj, [], false))
    ∧ (parseJson (fixTrailingCommas (stripJsonComments "?")) = none
      ∧ loadPipeline (some "?") mainDefaultsObj validateMainObj
          = (mainDefaultsObj, [], false)) :=
  ⟨⟨by decide,
    (load_failures_return_defaults mainDefaultsObj validateMainObj
      "// only a comment").2.1 (by decide)⟩,
   ⟨by decide,
    (load_failures_return_defaults mainDefaultsObj validateMainObj "?").2.2
      (by decide)⟩⟩

/-- C5: the merge starts from the defaults, overwrites (without coercion)
every default key that the parsed file supplies, drops keys unknown to the
defaults, and sets the rewrite flag exactly when some default key is missing
from the file; in particular a file with the extra key `foo` and without
`stacksize_lega` merges back to the defaults with the flag set, and the full
pipeline on `\x7b"foo": 1\x7d` returns the defaults with `fileNeedsUpdate =
true`. -/
theorem merge_step_characterized (d l : List (String × JVal))
    (hnd : (l.map Prod.fst).Nodup) :
    (mergeStep d l).1 = d.map (fun p => (p.1, (l.lookup p.1).getD p.2))
    ∧ ((mergeStep d l).2 = true ↔ ∃ p ∈ d, p.1 ∉ l.map Prod.fst)
    ∧ (∀ p ∈ (mergeStep d l).1, p.1 ∈ d.map Prod.fst)
    ∧ mergeStep mainDefaultsObj
        [("use_weather_module", JVal.jbool false),
         ("use_plant_time_module", JVal.jbool false),
         ("use_ammo_module", JVal.jbool false),
         ("use_weapon_module", JVal.jbool false),
         ("LootArmbands", JVal.jbool true),
         ("SaveArmbandOnDeath", JVal.jbool false),
         ("LootMelee", JVal.jbool true),
         ("SaveMeleeOnDeath", JVal.jbool false),
         ("disablePMC_ChatResponse", JVal.jbool false),
         ("allow_LegaMoneyCase", JVal.jbool false),
         ("removeFirForHideout", JVal.jbool false),
         ("disableSeasonEvents", JVal.jbool false),
         ("leaveItemAtLocationModifier", JVal.jnum 1),
         ("placeBeaconModifier", JVal.jnum 1),
         ("weightless_ammo", JVal.jbool false),
         ("weightless_ammoboxes", JVal.jbool false),
         ("weightless_grenades", JVal.jbool false),
         ("weapon_inv_shrink", JVal.jbool false),
         ("allow_autoupdate_configs", JVal.jbool false),
         ("enableDebugLogs", JVal.jbool false),
         ("foo", JVal.jnum 1)]
      = (mainDefaultsObj, true)
    ∧ loadPipeline (some "\x7b\"foo\": 1\x7d") mainDefaultsObj validateMainObj
      = (mainDefaultsObj, [], true) := by
  refine ⟨?_, ?_, ?_, by decide, by decide⟩
  · rw [mergeStep_eq d l hnd]
  · rw [mergeStep_eq d l hnd]
    simp [List.any_eq_true, List.elem_iff]
  · intro p hp
    rw [mergeStep_eq d l hnd] at hp
    obtain ⟨q, hq, he⟩ := List.mem_map.mp hp
    rw [← he]
    exact List.mem_map_of_mem Prod.fst (a := q) hq

/-- C5 at a concrete input: merging a file that renames `stacksize_lega` to
`foo` drops `foo`, keeps the default `stacksize_lega`, and sets the rewrite
flag. -/
theorem merge_step_characterized_witness :
    ((([("foo", JVal.jnum 1)] : List (String × JVal)).map Prod.fst).Nodup)
    ∧ (mergeStep mainDefaultsObj [("foo", JVal.jnum 1)]).1
        = mainDefaultsObj.map (fun p =>
            (p.1, (([("foo", JVal.jnum 1)] : List (String × JVal)).lookup p.1).getD p.2)) :=
  ⟨by decide,
   (merge_step_characterized mainDefaultsObj [("foo", JVal.jnum 1)] (by decide)).1⟩

/-- C6 counterexample: the sanitizer corrupts a retained string value: in
the valid JSON `\x7b"k": "a //b"\x7d` the `//` inside the quoted string is
treated as a line comment (the lookbehind only protects `//` directly
preceded by `:`, `"`, `\x27` or `\\`), the string content is truncated and
the result no longer parses. -/
theorem sanitize_corrupts_string_with_line_comment :
    parseJson "\x7b\"k\": \"a //b\"\x7d" = some (JVal.jobj [("k", JVal.jstr "a //b")])
    ∧ stripJsonComments "\x7b\"k\": \"a //b\"\x7d" = "\x7b\"k\": \"a"
    ∧ parseJson (fixTrailingCommas (stripJsonComments "\x7b\"k\": \"a //b\"\x7d"))
        = none := by
  refine ⟨by decide, by decide, by decide⟩

/-- C6 amended: on text without any `/` the sanitizer only trims whitespace,
and a `//` directly preceded by `:` (as in a URL value) is preserved; but
(see the counterexample) a `//` inside a quoted string preceded by any other
character is removed together with the rest of its line. -/
theorem sanitize_preserves_slashless_text (s : String) (h : '/' ∉ s.data) :
    stripJsonComments s = jsTrimS s
    ∧ stripJsonComments "\x7b\"url\": \"http://example.com\"\x7d"
        = "\x7b\"url\": \"http://example.com\"\x7d" := by
  refine ⟨?_, by decide⟩
  rw [stripJsonComments, stripBlock_id _ _ (noSlashStar_of_no_slash h),
    stripLineChars_id h]
  rfl

/-- C6 at a concrete input: on slash-free JSON the sanitizer is a plain
trim. -/
theorem sanitize_preserves_slashless_text_witness :
    ('/' ∉ ("\x7b\"k\": 1\x7d" : String).data)
    ∧ stripJsonComments "\x7b\"k\": 1\x7d" = jsTrimS "\x7b\"k\": 1\x7d" :=
  ⟨by decide, (sanitize_preserves_slashless_text "\x7b\"k\": 1\x7d" (by decide)).1⟩

/-- C7 counterexample: with both `disablePMC_ChatResponse` and
`enableDebugLogs` invalid, the reset-key list is `["enableDebugLogs",
"disablePMC_ChatResponse"]` — the order the source checks the fields — and
not the declaration order of the settings type, where
`disablePMC_ChatResponse` (field 9) precedes `enableDebugLogs` (field 21). -/
theorem reset_keys_not_declaration_order :
    (validateMainConfig {mainDefaultCfg with
        disablePMC_ChatResponse := JVal.jstr "yes", enableDebugLogs := JVal.jnum 5}).2
      = ["enableDebugLogs", "disablePMC_ChatResponse"]
    ∧ (validateMainConfig {mainDefaultCfg with
        disablePMC_ChatResponse := JVal.jstr "yes", enableDebugLogs := JVal.jnum 5}).2
      ≠ ["disablePMC_ChatResponse", "enableDebugLogs"] := by
  refine ⟨by decide, by decide⟩

/-- C7 amended: no validator short-circuits — the reset-key list is exactly
the keys of the failing checks, without duplicates, ordered by the order the
source checks the fields (for the main validator the seventeen boolean
checks precede `disablePMC_ChatResponse`, `stacksize_lega` and the two
modifiers; for the weather validator the boolean and integer checks precede
`exclude_seasons`, which precedes the seven season weights). -/
theorem reset_keys_check_order_nodup (c : MainCfg) (w : WeatherCfg) :
    (validateMainConfig c).2
      = (mainChecks.filter (fun fc => fc.test c)).map FieldCheck.key
    ∧ (validateWeatherConfig w).2
        = ((weatherChecksA.filter (fun fc => fc.test w)).map FieldCheck.key)
          ++ ((if weatherExcludeReset w then ["exclude_seasons"] else [])
          ++ ((weatherWeightChecks.filter (fun fc => fc.test w)).map FieldCheck.key))
    ∧ (validateMainConfig c).2.Nodup
    ∧ (validateWeatherConfig w).2.Nodup := by
  refine ⟨validateMainConfig_keys c, validateWeatherConfig_keys w, ?_, ?_⟩
  · rw [validateMainConfig_keys]
    exact List.Nodup.sublist ((List.filter_sublist _).map _) (by decide)
  · rw [validateWeatherConfig_keys]
    have hsub : List.Sublist
        (((weatherChecksA.filter (fun fc => fc.test w)).map FieldCheck.key)
          ++ ((if weatherExcludeReset w then ["exclude_seasons"] else [])
          ++ ((weatherWeightChecks.filter (fun fc => fc.test w)).map FieldCheck.key)))
        ((weatherChecksA.map FieldCheck.key)
          ++ (["exclude_seasons"] ++ weatherWeightChecks.map FieldCheck.key)) := by
      refine List.Sublist.append ((List.filter_sublist _).map _) ?_
      refine List.Sublist.append ?_ ((List.filter_sublist _).map _)
      split
      · exact List.Sublist.refl _
      · simp
    exact List.Nodup.sublist hsub (by decide)

/-- C8 counterexample: the sanitizer passes are not idempotent.  In
`a//*b*/*c*/d` the block pass consumes `/*b*/` and glues a new `/*c*/` block
that only a second run removes; in `,,]` the comma pass rewrites `,,]` to
`,]`, which a second run rewrites again to `]`. -/
theorem sanitize_not_idempotent :
    stripJsonComments (stripJsonComments "a//*b*/*c*/d")
      ≠ stripJsonComments "a//*b*/*c*/d"
    ∧ stripJsonComments "a//*b*/*c*/d" = "a/*c*/d"
    ∧ stripJsonComments "a/*c*/d" = "ad"
    ∧ fixTrailingCommas (fixTrailingCommas ",,]") ≠ fixTrailingCommas ",,]"
    ∧ fixTrailingCommas ",,]" = ",]"
    ∧ fixTrailingCommas ",]" = "]" := by
  refine ⟨by decide, by decide, by decide, by decide, by decide, by decide⟩

/-- C8 amended: both passes are pure total functions here, and they are
idempotent on restricted inputs: the comment pass is a plain trim (hence
idempotent) on slash-free text, and the comma pass is the identity on
comma-free text; on general inputs idempotence fails (see the
counterexample). -/
theorem sanitize_idempotent_on_slashless (s : String) :
    ('/' ∉ s.data →
      stripJsonComments (stripJsonComments s) = stripJsonComments s)
    ∧ (',' ∉ s.data → fixTrailingCommas s = s) := by
  constructor
  · intro h
    have h1 : stripJsonComments s = ⟨jsTrim s.data⟩ := by
      rw [stripJsonComments, stripBlock_id _ _ (noSlashStar_of_no_slash h),
        stripLineChars_id h]
    have h2 : '/' ∉ (⟨jsTrim s.data⟩ : String).data :=
      fun hm => h (mem_of_mem_jsTrim hm)
    rw [h1, stripJsonComments, stripBlock_id _ _ (noSlashStar_of_no_slash h2),
      stripLineChars_id h2]
    show (⟨jsTrim (jsTrim s.data)⟩ : String) = _
    rw [jsTrim_idem]
  · intro h
    rw [fixTrailingCommas, fixTCChars_id h]

/-- C8 at a concrete input: a slash-free, comma-free text is only trimmed,
and both passes fix it. -/
theorem sanitize_idempotent_on_slashless_witness :
    ('/' ∉ (" ab " : String).data
      ∧ stripJsonComments (stripJsonComments " ab ") = stripJsonComments " ab ")
    ∧ (',' ∉ (" ab " : String).data ∧ fixTrailingCommas " ab " = " ab ") :=
  ⟨⟨by decide, (sanitize_idempotent_on_slashless " ab ").1 (by decide)⟩,
   ⟨by decide, (sanitize_idempotent_on_slashless " ab ").2 (by decide)⟩⟩

theorem applyLootabilityItem_idem (cfg : SettingsEff) (id : String) (it : ItemT) :
    applyLootabilityItem cfg id (applyLootabilityItem cfg id it)
      = applyLootabilityItem cfg id it := by
  rcases it with ⟨par, ⟨ul, side, W⟩⟩
  simp only [applyLootabilityItem]
  split_ifs <;> simp_all

theorem applyAmmoWeightItem_idem (cfg : SettingsEff) (it : ItemT) :
    applyAmmoWeightItem cfg (applyAmmoWeightItem cfg it) = applyAmmoWeightItem cfg it := by
  rcases it with ⟨par, ⟨ul, side, W⟩⟩
  rcases W with _ | w
  · rfl
  · by_cases hz : (par = "" ∨ w = 0)
    · have h1 : applyAmmoWeightItem cfg ⟨par, ⟨ul, side, some w⟩⟩
          = ⟨par, ⟨ul, side, some w⟩⟩ := by
        simp only [applyAmmoWeightItem]
        rcases hz with h | h <;> simp [h]
      rw [h1, h1]
    · push_neg at hz
      obtain ⟨hp, hw⟩ := hz
      have h0 : applyAmmoWeightItem cfg ⟨par, ⟨ul, side, some 0⟩⟩
          = ⟨par, ⟨ul, side, some 0⟩⟩ := by
        simp only [applyAmmoWeightItem]
        simp
      by_cases b1 : (cfg.weightless_ammo && decide (par = AMMO_PARENT_ID)) = true
      · have h1 : applyAmmoWeightItem cfg ⟨par, ⟨ul, side, some w⟩⟩
            = ⟨par, ⟨ul, side, some 0⟩⟩ := by
          simp only [applyAmmoWeightItem]
          simp [hp, hw, b1]
        rw [h1, h0]
      · by_cases b2 : (cfg.weightless_ammoboxes && decide (par = AMMOBOX_PARENT_ID)) = true
        · have h1 : applyAmmoWeightItem cfg ⟨par, ⟨ul, side, some w⟩⟩
              = ⟨par, ⟨ul, side, some 0⟩⟩ := by
            simp only [applyAmmoWeightItem]
            simp [hp, hw, b1, b2]
          rw [h1, h0]
        · by_cases b3 : (cfg.weightless_grenades && decide (par = GRENADE_PARENT_ID)) = true
          · have h1 : applyAmmoWeightItem cfg ⟨par, ⟨ul, side, some w⟩⟩
                = ⟨par, ⟨ul, side, some 0⟩⟩ := by
              simp only [applyAmmoWeightItem]
              simp [hp, hw, b1, b2, b3]
            rw [h1, h0]
          · have h1 : applyAmmoWeightItem cfg ⟨par, ⟨ul, side, some w⟩⟩
                = ⟨par, ⟨ul, side, some w⟩⟩ := by
              simp only [applyAmmoWeightItem]
              simp [hp, hw, b1, b2, b3]
            rw [h1, h1]

theorem applyLostOnDeathChanges_idem (cfg : SettingsEff) (e : LostOnDeathEquipment) :
    applyLostOnDeathChanges cfg (applyLostOnDeathChanges cfg e)
      = applyLostOnDeathChanges cfg e := by
  rcases e with ⟨a, s⟩
  rcases cfg with ⟨la, lm, sa, sm, wa, wb, wg, ml, mp⟩
  cases sa <;> cases sm <;> cases a <;> cases s <;> rfl

theorem applyPlantTimeChanges_one (cfg : SettingsEff)
    (h1 : cfg.leaveItemAtLocationModifier = 1) (h2 : cfg.placeBeaconModifier = 1)
    (quests : List (String × QuestT)) :
    applyPlantTimeChanges cfg quests = quests := by
  rw [applyPlantTimeChanges]
  simp [h1, h2]

/-- C9 counterexample: the plant-time consumer is not idempotent: with
`leaveItemAtLocationModifier = 2` a plant time of `10` becomes `20` on the
first run and `40` on the second — the modifier multiplies the already
modified time again. -/
theorem plant_time_not_idempotent :
    applyPlantTimeChanges ⟨true, true, false, false, false, false, false, 2, 1⟩
        (applyPlantTimeChanges ⟨true, true, false, false, false, false, false, 2, 1⟩
          [("q", ⟨some [⟨"LeaveItemAtLocation", some 10⟩]⟩)])
      ≠ applyPlantTimeChanges ⟨true, true, false, false, false, false, false, 2, 1⟩
          [("q", ⟨some [⟨"LeaveItemAtLocation", some 10⟩]⟩)]
    ∧ applyPlantTimeChanges ⟨true, true, false, false, false, false, false, 2, 1⟩
        [("q", ⟨some [⟨"LeaveItemAtLocation", some 10⟩]⟩)]
      = [("q", ⟨some [⟨"LeaveItemAtLocation", some 20⟩]⟩)]
    ∧ applyPlantTimeChanges ⟨true, true, false, false, false, false, false, 2, 1⟩
        [("q", ⟨some [⟨"LeaveItemAtLocation", some 20⟩]⟩)]
      = [("q", ⟨some [⟨"LeaveItemAtLocation", some 40⟩]⟩)] := by
  refine ⟨by decide, by decide, by decide⟩

/-- C9 amended: the lootability, ammo-weight and lost-on-death consumers are
idempotent for every configuration and every data state; the plant-time
consumer is only idempotent when both modifiers are `1.0` (in which case it
returns the quests untouched), and in general is not (see the
counterexample). -/
theorem consumers_idempotent_except_plant_time (cfg : SettingsEff)
    (items : List (String × ItemT)) (e : LostOnDeathEquipment)
    (quests : List (String × QuestT)) :
    applyLootabilitySettings cfg (applyLootabilitySettings cfg items)
      = applyLootabilitySettings cfg items
    ∧ applyAmmoWeightChanges cfg (applyAmmoWeightChanges cfg items)
      = applyAmmoWeightChanges cfg items
    ∧ applyLostOnDeathChanges cfg (applyLostOnDeathChanges cfg e)
      = applyLostOnDeathChanges cfg e
    ∧ (cfg.leaveItemAtLocationModifier = 1 → cfg.placeBeaconModifier = 1 →
        applyPlantTimeChanges cfg (applyPlantTimeChanges cfg quests)
          = applyPlantTimeChanges cfg quests) := by
  refine ⟨?_, ?_, applyLostOnDeathChanges_idem cfg e, ?_⟩
  · rw [applyLootabilitySettings, applyLootabilitySettings, List.map_map]
    apply List.map_congr_left
    intro p _
    simp only [Function.comp]
    rw [applyLootabilityItem_idem]
  · rw [applyAmmoWeightChanges, applyAmmoWeightChanges, List.map_map]
    apply List.map_congr_left
    intro p _
    simp only [Function.comp]
    rw [applyAmmoWeightItem_idem]
  · intro h1 h2
    rw [applyPlantTimeChanges_one cfg h1 h2, applyPlantTimeChanges_one cfg h1 h2]

/-- C9 at a concrete input: with both modifiers `1.0` the plant-time
consumer leaves a quest untouched on repeated runs, and the other consumers
fix a one-item table. -/
theorem consumers_idempotent_except_plant_time_witness :
    applyPlantTimeChanges ⟨true, true, false, false, false, false, false, 1, 1⟩
        (applyPlantTimeChanges ⟨true, true, false, false, false, false, false, 1, 1⟩
          [("q", ⟨some [⟨"LeaveItemAtLocation", some 10⟩]⟩)])
      = applyPlantTimeChanges ⟨true, true, false, false, false, false, false, 1, 1⟩
          [("q", ⟨some [⟨"LeaveItemAtLocation", some 10⟩]⟩)] :=
  (consumers_idempotent_except_plant_time
    ⟨true, true, false, false, false, false, false, 1, 1⟩
    [] ⟨true, true⟩ [("q", ⟨some [⟨"LeaveItemAtLocation", some 10⟩]⟩)]).2.2.2 rfl rfl

/-- C10: `fixTrailingCommas` rewrites commas inside quoted strings too: the
strictly valid JSON `\x7b"k": "a, ]"\x7d` parses, but the pass removes the
comma inside the string literal, yielding different (still valid) JSON whose
retained string value changed from `"a, ]"` to `"a]"`. -/
theorem fixTrailingCommas_alters_string_content :
    fixTrailingCommas "\x7b\"k\": \"a, ]\"\x7d" = "\x7b\"k\": \"a]\"\x7d"
    ∧ parseJson "\x7b\"k\": \"a, ]\"\x7d" = some (JVal.jobj [("k", JVal.jstr "a, ]")])
    ∧ parseJson "\x7b\"k\": \"a]\"\x7d" = some (JVal.jobj [("k", JVal.jstr "a]")])
    ∧ ("\x7b\"k\": \"a]\"\x7d" : String) ≠ "\x7b\"k\": \"a, ]\"\x7d" := by
  refine ⟨by decide, by decide, by decide, by decide⟩
